import Mathlib

/-!
# ENBLightsForEffectShaders: `LightManager::GetLight` and `LightManager::ApplyLight`

A shallow embedding of `src/Manager.cpp`.

* `GetLight` is a pure function of the effect shader and of the reference data of the
  `texture::` and `color::` namespaces.  Those tables and helpers live in headers, so they
  are parameters here (`Classifier`, and `Env` for the library helpers).
* `ApplyLight` mutates the effect shader, the lazily built `debrisMap` and the `BGSDebris`
  objects it points to.  It is embedded as an explicit state-passing function over a
  `World` (cache, heap of debris objects, log) that may end in a `Fault` where the C++
  dereferences a null pointer or reads `front()` of an empty list.
-/

namespace ENBLights

/-! ## Data model -/

/-- Modelled from the spec: the `LIGHT` enumeration (declared in `Manager.h`), a set of
mutually exclusive light kinds plus the distinguished value `kNone`. -/
inductive LIGHT where
  | kNone
  | kLight (n : Nat)
  deriving DecidableEq, Repr

/-- Modelled from the spec: `RE::Color`, a fixed-size RGB(+flag) tuple. -/
structure Color where
  red : Nat
  green : Nat
  blue : Nat
  alpha : Nat
  deriving DecidableEq, Repr

/-- Modelled from the spec: `RE::EffectShaderData::Flags`, a set of boolean flags of which
`GetLight` tests `kParticleGreyscaleColor` and `kGreyscaleToColor`. -/
structure Flags where
  kParticleGreyscaleColor : Bool
  kGreyscaleToColor : Bool
  deriving DecidableEq, Repr

/-- A `std::array` of three values, as built at `Manager.cpp:75` and returned by the array
overload of `color::get_light_by_color`. -/
structure Array3 (α : Type) where
  a0 : α
  a1 : α
  a2 : α
  deriving DecidableEq, Repr

/-- The elements of an `Array3` in iteration order. -/
def Array3.toList {α : Type} (v : Array3 α) : List α := [v.a0, v.a1, v.a2]

/-- The texture member of an effect shader: only `textureName` is read. -/
structure TESTexture where
  textureName : String
  deriving DecidableEq, Repr

/-- The fields of `RE::EffectShaderData` that `Manager.cpp` reads or writes.  `addonModels`
is a possibly null pointer to a `BGSDebris` object: `none` is the null pointer, `some q`
the address `q` of the `World` heap. -/
structure EffectShaderData where
  flags : Flags
  colorKey1 : Color
  colorKey2 : Color
  colorKey3 : Color
  edgeColor : Color
  addonModels : Option Nat
  deriving DecidableEq, Repr

/-- The fields of `RE::TESEffectShader` that `Manager.cpp` reads or writes. -/
structure TESEffectShader where
  formID : Nat
  data : EffectShaderData
  particlePaletteTexture : TESTexture
  membranePaletteTexture : TESTexture
  particleShaderTexture : TESTexture
  fillTexture : TESTexture
  deriving DecidableEq, Repr

/-- A reference table of the `texture::` namespace: in iteration order, a category and the
substrings that identify it. -/
abbrev TextureMap := List (LIGHT × List String)

/-- The reference data `GetLight` consults, declared in headers of the repository:
the `texture::` tables and the `color::` helpers (both overloads of `is_invalid_color`
and of `get_light_by_color`).  A distance is a natural number: the spec only asks for a
non-negative measure where smaller is closer. -/
structure Classifier where
  blacklistedShaders : List String
  paletteMap : TextureMap
  particleShaderMap : TextureMap
  membraneShaderMap : TextureMap
  is_invalid_color : Color → Bool
  is_invalid_colors : Array3 Color → Bool
  get_light_by_color : Color → LIGHT × Nat
  get_lights_by_color : Array3 Color → Array3 (LIGHT × Nat)

/-- One record handed to `logger::info`. -/
inductive LogRecord where
  | dynamicForm (editorID : String) (formID : Nat)
  | fileForm (editorID : String) (localFormID : Nat) (fileName : String)
  | model (fileName : String)
  deriving DecidableEq, Repr

/-- Everything `Manager.cpp` takes from outside the file.

* `icontains` is `string::icontains` of the utility library;
* `hashOrder` is the order in which a `std::unordered_map` enumerates its entries, given
  them in insertion order (a permutation, see `Env.HashOrderOk`);
* `cls` is the reference data of `GetLight`;
* `GetOverrideLight` is `Settings::GetOverrideLight`;
* `nifMap` is `nif::map` in iteration order, `canCreate` tells whether the form factory
  yields a `BGSDebris` for a category;
* the last five are the form identity helpers used for the log record. -/
structure Env where
  icontains : String → String → Bool
  hashOrder : List (LIGHT × Int) → List (LIGHT × Int)
  cls : Classifier
  GetOverrideLight : TESEffectShader → LIGHT
  nifMap : List (LIGHT × String)
  canCreate : LIGHT → Bool
  get_editorID : TESEffectShader → String
  IsDynamicForm : TESEffectShader → Bool
  GetFormID : TESEffectShader → Nat
  GetLocalFormID : TESEffectShader → Nat
  GetFileName : TESEffectShader → String

/-- The enumeration order of the tally map only rearranges its entries. -/
def Env.HashOrderOk (env : Env) : Prop :=
  ∀ m : List (LIGHT × Int), (env.hashOrder m).Perm m

/-! ## `LightManager::GetLight` -/

/-- Lines `Manager.cpp:8`. -/
def has_particle_palette (env : Env) (s : TESEffectShader) (a_path : String) : Bool :=
  env.icontains s.particlePaletteTexture.textureName a_path

/-- Lines `Manager.cpp:11`. -/
def has_membrane_palette (env : Env) (s : TESEffectShader) (a_path : String) : Bool :=
  env.icontains s.membranePaletteTexture.textureName a_path

/-- Lines `Manager.cpp:14`. -/
def has_particle_shader (env : Env) (s : TESEffectShader) (a_path : String) : Bool :=
  env.icontains s.particleShaderTexture.textureName a_path

/-- Lines `Manager.cpp:17`: the membrane shader test reads the fill texture. -/
def has_membrane_shader (env : Env) (s : TESEffectShader) (a_path : String) : Bool :=
  env.icontains s.fillTexture.textureName a_path

/-- Lines `Manager.cpp:21-25`: does the blacklist loop return. -/
def blacklisted (env : Env) (s : TESEffectShader) : Bool :=
  env.cls.blacklistedShaders.any
    (fun texture => has_particle_shader env s texture || has_membrane_shader env s texture)

/-- The nested loop shared by the four texture stages: the first entry of the table, in
iteration order, one of whose substrings satisfies `has`. -/
def scanMap (has : String → Bool) (map : TextureMap) : Option LIGHT :=
  (map.find? (fun entry => entry.2.any has)).map Prod.fst

/-- Lines `Manager.cpp:51-55` and `65-69`: a valid edge colour replaces the matched category. -/
def edgeOverride (env : Env) (s : TESEffectShader) (light : LIGHT) : LIGHT :=
  if !env.cls.is_invalid_color s.data.edgeColor then
    (env.cls.get_light_by_color s.data.edgeColor).1
  else light

/-- Lines `Manager.cpp:27-35`: `some light` when the stage returns `light`. -/
def particlePaletteStage (env : Env) (s : TESEffectShader) : Option LIGHT :=
  if !s.particlePaletteTexture.textureName.isEmpty && s.data.flags.kParticleGreyscaleColor then
    scanMap (has_particle_palette env s) env.cls.paletteMap
  else none

/-- Lines `Manager.cpp:37-45`. -/
def particleShaderStage (env : Env) (s : TESEffectShader) : Option LIGHT :=
  if !s.particleShaderTexture.textureName.isEmpty then
    scanMap (has_particle_shader env s) env.cls.particleShaderMap
  else none

/-- Lines `Manager.cpp:47-59`. -/
def membraneShaderStage (env : Env) (s : TESEffectShader) : Option LIGHT :=
  if !s.fillTexture.textureName.isEmpty then
    (scanMap (has_membrane_shader env s) env.cls.membraneShaderMap).map (edgeOverride env s)
  else none

/-- Lines `Manager.cpp:61-73`. -/
def membranePaletteStage (env : Env) (s : TESEffectShader) : Option LIGHT :=
  if !s.membranePaletteTexture.textureName.isEmpty && s.data.flags.kGreyscaleToColor then
    (scanMap (has_membrane_palette env s) env.cls.paletteMap).map (edgeOverride env s)
  else none

/-- The loop of `std::ranges::min_element`: keep the first element, replace it only by a
later one that compares strictly before it. -/
def min_element {α : Type} (comp : α → α → Bool) : List α → Option α
  | [] => none
  | x :: xs => some (xs.foldl (fun smallest y => if comp y smallest then y else smallest) x)

/-- Lines `Manager.cpp:85-89`: the category of the nearest colour. -/
def byDistance (lights : Array3 (LIGHT × Nat)) : LIGHT :=
  match min_element (fun a b => decide (a.2 < b.2)) lights.toList with
  | some it => it.1
  | none => LIGHT.kNone

/-- One step of `hash[light]++` (`Manager.cpp:94`): a missing key is inserted with count
`0` and then incremented. -/
def tallyStep : List (LIGHT × Int) → LIGHT → List (LIGHT × Int)
  | [], light => [(light, 1)]
  | (k, n) :: rest, light =>
    if k = light then (k, n + 1) :: rest else (k, n) :: tallyStep rest light

/-- Lines `Manager.cpp:92-95`: the tally of the categories, entries in insertion order. -/
def tally (lights : List LIGHT) : List (LIGHT × Int) :=
  lights.foldl tallyStep []

/-- Lines `Manager.cpp:97-105`: the running maximum over the enumerated tally. -/
def pickMax (entries : List (LIGHT × Int)) : LIGHT :=
  (entries.foldl
    (fun (acc : Int × LIGHT) (entry : LIGHT × Int) =>
      if acc.1 < entry.2 then (entry.2, entry.1) else acc)
    (-1, LIGHT.kNone)).2

/-- Lines `Manager.cpp:92-105`: the most frequent category. -/
def byFrequency (env : Env) (lights : Array3 (LIGHT × Nat)) : LIGHT :=
  pickMax (env.hashOrder (tally (lights.toList.map Prod.fst)))

/-- Lines `Manager.cpp:75-79`. -/
def keyColors (s : TESEffectShader) : Array3 Color :=
  ⟨s.data.colorKey1, s.data.colorKey2, s.data.colorKey3⟩

/-- Lines `Manager.cpp:75-113`: the key colour vote, the edge colour fallback and the default. -/
def colorStage (env : Env) (s : TESEffectShader) : LIGHT :=
  if !env.cls.is_invalid_colors (keyColors s) then
    let lights := env.cls.get_lights_by_color (keyColors s)
    if lights.a0.1 ≠ lights.a1.1 ∧ lights.a0.1 ≠ lights.a2.1 ∧ lights.a1.1 ≠ lights.a2.1 then
      byDistance lights
    else
      byFrequency env lights
  else if !env.cls.is_invalid_color s.data.edgeColor then
    (env.cls.get_light_by_color s.data.edgeColor).1
  else LIGHT.kNone

/-- The function `LightManager::GetLight` (`Manager.cpp:4-114`). -/
def GetLight (env : Env) (s : TESEffectShader) : LIGHT :=
  if blacklisted env s then LIGHT.kNone
  else match particlePaletteStage env s with
    | some light => light
    | none =>
      match particleShaderStage env s with
      | some light => light
      | none =>
        match membraneShaderStage env s with
        | some light => light
        | none =>
          match membranePaletteStage env s with
          | some light => light
          | none => colorStage env s

/-! ## `LightManager::ApplyLight` -/

/-- The ways the C++ program can end fatally inside `ApplyLight`: reading `fileName`
through a null `BGSDebrisData*` (`Manager.cpp:143`) and `front()` of an empty list
(`Manager.cpp:143`, `146`). -/
inductive Fault where
  | nullDereference
  | frontOfEmptyList
  deriving DecidableEq, Repr

/-- The state `ApplyLight` works on, besides the effect shader itself.

* `init` is the `std::once_flag`;
* `debrisMap` is the cache: its entries, key and owning pointer (`none` is the null
  pointer that `operator[]` inserts for a missing key);
* `debris q` is the `data` list of the `BGSDebris` object at address `q`, each entry a
  possibly null `BGSDebrisData*`;
* `fileName x` is the `fileName` of the `BGSDebrisData` at address `x`;
* `nextDebris` and `nextData` are the next addresses the allocator hands out;
* `log` is what has been sent to the logger. -/
structure World where
  init : Bool
  debrisMap : List (LIGHT × Option Nat)
  debris : Nat → List (Option Nat)
  fileName : Nat → String
  nextDebris : Nat
  nextData : Nat
  log : List LogRecord

/-- The `emplace` of the cache map: a key that is already present keeps its value. -/
def emplace (m : List (LIGHT × Option Nat)) (k : LIGHT) (v : Option Nat) :
    List (LIGHT × Option Nat) :=
  match m.lookup k with
  | some _ => m
  | none => m ++ [(k, v)]

/-- The `operator[]` of the cache map followed by `.get()`: the stored pointer, and the
map, which gains a null entry when the key was missing. -/
def index (m : List (LIGHT × Option Nat)) (k : LIGHT) :
    Option Nat × List (LIGHT × Option Nat) :=
  match m.lookup k with
  | some v => (v, m)
  | none => (none, m ++ [(k, none)])

/-- One iteration of the loop at `Manager.cpp:119-129`: when the factory yields an object,
a fresh `BGSDebris` whose list holds one fresh `BGSDebrisData` for `path` is emplaced. -/
def buildEntry (env : Env) (w : World) (entry : LIGHT × String) : World :=
  if env.canCreate entry.1 then
    { w with
      debris := Function.update w.debris w.nextDebris [some w.nextData]
      fileName := Function.update w.fileName w.nextData entry.2
      nextDebris := w.nextDebris + 1
      nextData := w.nextData + 1
      debrisMap := emplace w.debrisMap entry.1 (some w.nextDebris) }
  else w

/-- Lines `Manager.cpp:118-130`: the cache is built by the first call only. -/
def call_once (env : Env) (w : World) : World :=
  if w.init then w
  else { env.nifMap.foldl (buildEntry env) w with init := true }

/-- Lines `Manager.cpp:132-135`: the override, else the classification. -/
def resolveLight (env : Env) (s : TESEffectShader) : LIGHT :=
  let light := env.GetOverrideLight s
  if light = LIGHT.kNone then GetLight env s else light

/-- The predicate of `Manager.cpp:142-144` on one list entry, for the cached object at
address `p`.  The file name is read first, `front()` only when the marker is absent. -/
def matchesDebris (env : Env) (w : World) (p : Nat) : Option Nat → Except Fault Bool
  | none => .error .nullDereference
  | some x =>
    if env.icontains (w.fileName x) "enb\\" then .ok true
    else
      match w.debris p with
      | [] => .error .frontOfEmptyList
      | f :: _ => .ok (decide (some x = f))

/-- The algorithm `std::ranges::find_if` with a predicate that may fail: whether the iterator it
returns differs from `end()`. -/
def find_if {α : Type} (pred : α → Except Fault Bool) : List α → Except Fault Bool
  | [] => .ok false
  | a :: rest =>
    match pred a with
    | .error e => .error e
    | .ok true => .ok true
    | .ok false => find_if pred rest

/-- Lines `Manager.cpp:142-147`: search the existing list at address `q` for the marker or for
the first element of the cached object at address `p`; prepend that element when the
search reaches the end. -/
def merge (env : Env) (w : World) (q p : Nat) : Except Fault World :=
  match find_if (matchesDebris env w p) (w.debris q) with
  | .error e => .error e
  | .ok true => .ok w
  | .ok false =>
    match w.debris p with
    | [] => .error .frontOfEmptyList
    | f :: _ => .ok { w with debris := Function.update w.debris q (f :: w.debris q) }

/-- Lines `Manager.cpp:138-149`: install the cached object, or merge its first element.  Both
branches evaluate `debrisMap[light]`, which may add a null entry to the cache. -/
def attach (env : Env) (w : World) (s : TESEffectShader) (light : LIGHT) :
    Except Fault (World × TESEffectShader) :=
  match s.data.addonModels with
  | none =>
    .ok ({ w with debrisMap := (index w.debrisMap light).2 },
      { s with data := { s.data with addonModels := (index w.debrisMap light).1 } })
  | some q =>
    match (index w.debrisMap light).1 with
    | none => .ok ({ w with debrisMap := (index w.debrisMap light).2 }, s)
    | some p =>
      match merge env { w with debrisMap := (index w.debrisMap light).2 } q p with
      | .error e => .error e
      | .ok w1 => .ok (w1, s)

/-- Lines `Manager.cpp:152-156`: the record that identifies the effect shader. -/
def headerRecord (env : Env) (s : TESEffectShader) : LogRecord :=
  if env.IsDynamicForm s then .dynamicForm (env.get_editorID s) (env.GetFormID s)
  else .fileForm (env.get_editorID s) (env.GetLocalFormID s) (env.GetFileName s)

/-- Lines `Manager.cpp:151-163`: the log records, one header and one line per non-null model. -/
def logShader (env : Env) (w : World) (s : TESEffectShader) : World :=
  match s.data.addonModels with
  | none => w
  | some q =>
    { w with log := w.log ++ headerRecord env s ::
        (w.debris q).filterMap (fun model => model.map (fun x => LogRecord.model (w.fileName x))) }

/-- What a call of `ApplyLight` that returns leaves behind. -/
structure Outcome where
  ret : Bool
  world : World
  shader : TESEffectShader

/-- The function `LightManager::ApplyLight` (`Manager.cpp:116-169`). -/
def ApplyLight (env : Env) (w0 : World) (s : TESEffectShader) : Except Fault Outcome :=
  let w := call_once env w0
  let light := resolveLight env s
  if light ≠ LIGHT.kNone then
    match attach env w s light with
    | .error e => .error e
    | .ok (w1, s1) => .ok ⟨true, logShader env w1 s1, s1⟩
  else .ok ⟨false, w, s⟩

/-- The addon-model list of an effect shader in a world: `none` when it has no list. -/
def addonList (w : World) (s : TESEffectShader) : Option (List (Option Nat)) :=
  s.data.addonModels.map w.debris

/-! ## Concrete reference data

A small environment on which the definitions above can be evaluated. -/

/-- The upper case of an ASCII letter, any other character unchanged. -/
def toupper (c : Char) : Char :=
  if 'a' ≤ c ∧ c ≤ 'z' then Char.ofNat (c.toNat - 32) else c

/-- Does `needle` start `hay`, letters compared by their upper case. -/
def startsWithCI : List Char → List Char → Bool
  | [], _ => true
  | _ :: _, [] => false
  | n :: ns, h :: hs => toupper n == toupper h && startsWithCI ns hs

/-- Does `needle` occur in `hay`, letters compared by their upper case. -/
def occursCI (needle : List Char) : List Char → Bool
  | [] => needle.isEmpty
  | h :: hs => startsWithCI needle (h :: hs) || occursCI needle hs

/-- Modelled from the spec: `string::icontains`, which is not part of `Manager.cpp`; the
spec asks for case-insensitive containment of the second string in the first. -/
def icontainsCI (a_str1 a_str2 : String) : Bool :=
  occursCI a_str2.data a_str1.data

/-- Three reference colours, one per category. -/
def demoColors : List (LIGHT × Color) :=
  [(LIGHT.kLight 1, ⟨255, 0, 0, 0⟩), (LIGHT.kLight 2, ⟨0, 0, 255, 0⟩),
   (LIGHT.kLight 3, ⟨0, 255, 0, 0⟩)]

/-- The sum of the channel differences of two colours. -/
def colorDistance (a b : Color) : Nat :=
  (a.red - b.red) + (b.red - a.red) + ((a.green - b.green) + (b.green - a.green)) +
    ((a.blue - b.blue) + (b.blue - a.blue))

/-- The nearest reference colour of `demoColors` and its distance. -/
def demoResolve (c : Color) : LIGHT × Nat :=
  demoColors.foldl
    (fun best ref => if colorDistance c ref.2 < best.2 then (ref.1, colorDistance c ref.2) else best)
    (LIGHT.kNone, 1000)

/-- The colour that counts as not set in the concrete environment. -/
def demoInvalid (c : Color) : Bool := decide (c = ⟨0, 0, 0, 0⟩)

/-- Concrete reference tables. -/
def demoClassifier : Classifier where
  blacklistedShaders := ["fxnolight"]
  paletteMap := [(LIGHT.kLight 1, ["fire", "flame"]), (LIGHT.kLight 2, ["frost", "ice"])]
  particleShaderMap := [(LIGHT.kLight 1, ["ember"]), (LIGHT.kLight 2, ["snow"])]
  membraneShaderMap := [(LIGHT.kLight 2, ["shock"]), (LIGHT.kLight 3, ["poison"])]
  is_invalid_color := demoInvalid
  is_invalid_colors := fun v => v.toList.any demoInvalid
  get_light_by_color := demoResolve
  get_lights_by_color := fun v => ⟨demoResolve v.a0, demoResolve v.a1, demoResolve v.a2⟩

/-- A concrete environment: no override, the hash map enumerates in insertion order, the
factory always succeeds. -/
def demoEnv : Env where
  icontains := icontainsCI
  hashOrder := fun m => m
  cls := demoClassifier
  GetOverrideLight := fun _ => LIGHT.kNone
  nifMap := [(LIGHT.kLight 1, "enb\\light_red.nif"), (LIGHT.kLight 2, "enb\\light_blue.nif"),
    (LIGHT.kLight 3, "enb\\light_green.nif")]
  canCreate := fun _ => true
  get_editorID := fun _ => "DemoShader"
  IsDynamicForm := fun _ => false
  GetFormID := fun s => s.formID
  GetLocalFormID := fun s => s.formID % 16777216
  GetFileName := fun _ => "Demo.esp"

/-- An effect shader with no texture, no flag, no colour set and no addon models. -/
def blankShader : TESEffectShader where
  formID := 2048
  data := ⟨⟨false, false⟩, ⟨0, 0, 0, 0⟩, ⟨0, 0, 0, 0⟩, ⟨0, 0, 0, 0⟩, ⟨0, 0, 0, 0⟩, none⟩
  particlePaletteTexture := ⟨""⟩
  membranePaletteTexture := ⟨""⟩
  particleShaderTexture := ⟨""⟩
  fillTexture := ⟨""⟩

/-- The shader `blankShader` with the given key colours. -/
def keyedShader (c1 c2 c3 : Color) : TESEffectShader :=
  { blankShader with
    data := { blankShader.data with colorKey1 := c1, colorKey2 := c2, colorKey3 := c3 } }

/-- A shader whose only texture is a fill texture matching the membrane shader table,
with a red edge colour. -/
def shockShader : TESEffectShader :=
  { blankShader with
    fillTexture := ⟨"Effects\\FXShockMembrane.dds"⟩
    data := { blankShader.data with edgeColor := ⟨250, 10, 0, 0⟩ } }

/-- A shader whose only texture is a particle shader texture that matches both the
particle shader table and the blacklist. -/
def emberShader : TESEffectShader :=
  { blankShader with particleShaderTexture := ⟨"Effects\\FXNoLightEmber.dds"⟩ }

/-- A shader whose particle shader texture matches the table and the blacklist. -/
def vetoedShader : TESEffectShader :=
  { blankShader with
    particleShaderTexture := ⟨"Effects\\FXNoLightEmber.dds"⟩
    particlePaletteTexture := ⟨"Effects\\FirePalette.dds"⟩
    data := { blankShader.data with flags := ⟨true, true⟩ } }

/-- Key colours near blue, red and green, the second one the nearest to its reference. -/
def distinctShader : TESEffectShader :=
  keyedShader ⟨40, 60, 250, 0⟩ ⟨250, 10, 0, 0⟩ ⟨0, 200, 0, 0⟩

/-- Key colours of which the first and the third are near blue and the second, the
nearest to its reference, is near red. -/
def majorityShader : TESEffectShader :=
  keyedShader ⟨40, 60, 250, 0⟩ ⟨250, 10, 0, 0⟩ ⟨0, 90, 200, 0⟩

/-- The shader `distinctShader` with the `BGSDebris` object at address `0` as its addon models. -/
def listedShader : TESEffectShader :=
  { distinctShader with data := { distinctShader.data with addonModels := some 0 } }

/-- The shader `blankShader`, for which no stage of `GetLight` applies, with the `BGSDebris` object at
address `0` as its addon models. -/
def plainListedShader : TESEffectShader :=
  { blankShader with data := { blankShader.data with addonModels := some 0 } }

/-- The state before the first call of `ApplyLight`: the cache is not built and one
`BGSDebris` object of the game, at address `0`, lists one model. -/
def gameWorld : World where
  init := false
  debrisMap := []
  debris := fun q => if q = 0 then [some 0] else []
  fileName := fun x => if x = 0 then "Effects\\Sparks.nif" else ""
  nextDebris := 1
  nextData := 1
  log := []

/-- The environment `demoEnv` with a form factory that never yields an object. -/
def noFactoryEnv : Env :=
  { demoEnv with canCreate := fun _ => false }

/-- The environment `demoEnv` with an override that forces `kLight 3` on every effect shader. -/
def overrideEnv : Env :=
  { demoEnv with GetOverrideLight := fun _ => LIGHT.kLight 3 }

/-- The cached objects are usable: every cached `BGSDebris` lists a non-null first
element.  The cache build establishes this and `ApplyLight` keeps it. -/
def World.CacheOk (w : World) : Prop :=
  ∀ k p, w.debrisMap.lookup k = some (some p) → ∃ x rest, w.debris p = some x :: rest

/-- A state before the first call in which the `BGSDebris` object at address `0` lists a
model of another plugin, stored under an `ENB` folder, followed by a null entry. -/
def enbWorld : World where
  init := false
  debrisMap := []
  debris := fun q => if q = 0 then [some 0, none] else []
  fileName := fun x => if x = 0 then "Meshes\\ENB\\Torch.nif" else ""
  nextDebris := 1
  nextData := 1
  log := []

/-- A state before the first call in which the `BGSDebris` object at address `0` lists a
null entry before its model. -/
def nullWorld : World where
  init := false
  debrisMap := []
  debris := fun q => if q = 0 then [none, some 0] else []
  fileName := fun x => if x = 0 then "Effects\\Sparks.nif" else ""
  nextDebris := 1
  nextData := 1
  log := []

/-- A shader with both palette textures set and both palette flags unset. -/
def paletteOffShader : TESEffectShader :=
  { blankShader with
    particlePaletteTexture := ⟨"Effects\\FirePalette.dds"⟩
    membranePaletteTexture := ⟨"Effects\\FrostPalette.dds"⟩ }

/-- A shader whose particle shader texture contains substrings of both entries of the
particle shader table, with a fill texture, key colours and an edge colour set. -/
def snowEmberShader : TESEffectShader :=
  { blankShader with
    particleShaderTexture := ⟨"Effects\\SnowEmber.dds"⟩
    fillTexture := ⟨"Effects\\FXPoisonMembrane.dds"⟩
    data := { blankShader.data with
      colorKey1 := ⟨0, 200, 0, 0⟩, colorKey2 := ⟨0, 210, 0, 0⟩, colorKey3 := ⟨0, 220, 0, 0⟩,
      edgeColor := ⟨0, 0, 240, 0⟩ } }

/-- The effect shaders of the game, by index, together with the state they share. -/
structure Game where
  world : World
  shaders : Nat → TESEffectShader

/-- One call of `ApplyLight` on the effect shader with index `i`: the shader and the
shared state are replaced by what the call leaves. -/
def Game.applyLight (env : Env) (g : Game) (i : Nat) : Except Fault Game :=
  match ApplyLight env g.world (g.shaders i) with
  | .error e => .error e
  | .ok r => .ok ⟨r.world, Function.update g.shaders i r.shader⟩

/-- A finite sequence of calls of `ApplyLight`, on the shaders with the given indices. -/
def Game.run (env : Env) : Game → List Nat → Except Fault Game
  | g, [] => .ok g
  | g, i :: rest =>
    match g.applyLight env i with
    | .error e => .error e
    | .ok g1 => Game.run env g1 rest

/-- The state of a game once the cache is built: `kNone` is no key of the cache, every
cached object lists exactly one non-null element, and an effect shader whose addon models
are a cached object resolves to the category of that object. -/
def Game.Settled (env : Env) (g : Game) : Prop :=
  g.world.init = true ∧
  g.world.debrisMap.lookup LIGHT.kNone = none ∧
  (∀ k p, g.world.debrisMap.lookup k = some (some p) → ∃ x, g.world.debris p = [some x]) ∧
  (∀ i q, (g.shaders i).data.addonModels = some q →
    (∀ k, g.world.debrisMap.lookup k ≠ some (some q)) ∨
    g.world.debrisMap.lookup (resolveLight env (g.shaders i)) = some (some q))

/-- No addon-model list of the game holds a null entry. -/
def Game.NoNull (g : Game) : Prop :=
  ∀ i q, (g.shaders i).data.addonModels = some q → none ∉ g.world.debris q

/-- The shaders `distinctShader` (index `0`), `listedShader` (index `1`) and
`majorityShader` (every other index) over `gameWorld`. -/
def demoGame : Game where
  world := gameWorld
  shaders := fun i => if i = 0 then distinctShader else if i = 1 then listedShader
    else majorityShader

/-! ## Lemmas on `GetLight` -/

theorem GetLight_of_stages_none (env : Env) (s : TESEffectShader)
    (hb : blacklisted env s = false)
    (h1 : particlePaletteStage env s = none) (h2 : particleShaderStage env s = none)
    (h3 : membraneShaderStage env s = none) (h4 : membranePaletteStage env s = none) :
    GetLight env s = colorStage env s := by
  simp [GetLight, hb, h1, h2, h3, h4]

theorem scanMap_of_find {has : String → Bool} {map : TextureMap} {c : LIGHT}
    {ts : List String} (h : map.find? (fun entry => entry.2.any has) = some (c, ts)) :
    scanMap has map = some c := by
  simp [scanMap, h]

theorem perm_pair {α : Type} {l : List α} {x y : α} (h : l.Perm [x, y]) :
    l = [x, y] ∨ l = [y, x] := by
  have hlen : l.length = 2 := by simpa using h.length_eq
  match l, hlen with
  | [u, v], _ =>
    have hu : u ∈ [x, y] := h.subset (by simp)
    simp only [List.mem_cons, List.mem_singleton, List.not_mem_nil, or_false] at hu
    rcases hu with rfl | rfl
    · have h2 : [v].Perm [y] := List.Perm.cons_inv h
      have hv : v = y := by simpa using h2.subset (List.mem_singleton_self v)
      exact Or.inl (by rw [hv])
    · have h2 : [v].Perm [x] := List.Perm.cons_inv (h.trans (List.Perm.swap _ _ _))
      have hv : v = x := by simpa using h2.subset (List.mem_singleton_self v)
      exact Or.inr (by rw [hv])

theorem pickMax_two_one (a b : LIGHT) (l : List (LIGHT × Int))
    (h : l.Perm [(a, 2), (b, 1)]) : pickMax l = a := by
  rcases perm_pair h with rfl | rfl <;> simp [pickMax]

/-! ## Lemmas on the cache build -/

theorem buildEntry_log (env : Env) (w : World) (entry : LIGHT × String) :
    (buildEntry env w entry).log = w.log := by
  unfold buildEntry
  split <;> rfl

theorem buildEntry_nextDebris (env : Env) (w : World) (entry : LIGHT × String) :
    w.nextDebris ≤ (buildEntry env w entry).nextDebris := by
  unfold buildEntry
  split
  · exact Nat.le_succ _
  · exact Nat.le_refl _

theorem buildEntry_nextData (env : Env) (w : World) (entry : LIGHT × String) :
    w.nextData ≤ (buildEntry env w entry).nextData := by
  unfold buildEntry
  split
  · exact Nat.le_succ _
  · exact Nat.le_refl _

theorem buildEntry_debris (env : Env) (w : World) (entry : LIGHT × String) (q : Nat)
    (hq : q < w.nextDebris) : (buildEntry env w entry).debris q = w.debris q := by
  unfold buildEntry
  split
  · exact Function.update_noteq (Nat.ne_of_lt hq) _ _
  · rfl

theorem buildEntry_fileName (env : Env) (w : World) (entry : LIGHT × String) (x : Nat)
    (hx : x < w.nextData) : (buildEntry env w entry).fileName x = w.fileName x := by
  unfold buildEntry
  split
  · exact Function.update_noteq (Nat.ne_of_lt hx) _ _
  · rfl

theorem buildEntry_cacheOk (env : Env) (w : World) (entry : LIGHT × String)
    (h : w.CacheOk) : (buildEntry env w entry).CacheOk := by
  unfold buildEntry
  split
  · intro k p hk
    simp only at hk ⊢
    by_cases hp : p = w.nextDebris
    · subst hp
      exact ⟨w.nextData, [], by simp⟩
    · rw [Function.update_noteq hp]
      unfold emplace at hk
      split at hk
      · exact h k p hk
      · rw [List.lookup_append] at hk
        cases hl : w.debrisMap.lookup k with
        | some v =>
          rw [hl] at hk
          simp only [Option.or_some] at hk
          exact h k p (by rw [hl, hk])
        | none =>
          rw [hl] at hk
          simp only [Option.none_or, List.lookup_cons, List.lookup_nil] at hk
          split at hk
          · simp only [Option.some.injEq] at hk
            exact absurd hk.symm hp
          · exact Option.noConfusion hk
  · exact h

theorem foldl_buildEntry_log (env : Env) (entries : List (LIGHT × String)) (w : World) :
    (entries.foldl (buildEntry env) w).log = w.log := by
  induction entries generalizing w with
  | nil => rfl
  | cons e rest ih => rw [List.foldl_cons, ih, buildEntry_log]

theorem foldl_buildEntry_debris (env : Env) (entries : List (LIGHT × String)) (w : World)
    (q : Nat) (hq : q < w.nextDebris) :
    (entries.foldl (buildEntry env) w).debris q = w.debris q := by
  induction entries generalizing w with
  | nil => rfl
  | cons e rest ih =>
    rw [List.foldl_cons, ih _ (Nat.lt_of_lt_of_le hq (buildEntry_nextDebris env w e)),
      buildEntry_debris env w e q hq]

theorem foldl_buildEntry_fileName (env : Env) (entries : List (LIGHT × String)) (w : World)
    (x : Nat) (hx : x < w.nextData) :
    (entries.foldl (buildEntry env) w).fileName x = w.fileName x := by
  induction entries generalizing w with
  | nil => rfl
  | cons e rest ih =>
    rw [List.foldl_cons, ih _ (Nat.lt_of_lt_of_le hx (buildEntry_nextData env w e)),
      buildEntry_fileName env w e x hx]

theorem foldl_buildEntry_cacheOk (env : Env) (entries : List (LIGHT × String)) (w : World)
    (h : w.CacheOk) : (entries.foldl (buildEntry env) w).CacheOk := by
  induction entries generalizing w with
  | nil => exact h
  | cons e rest ih => exact ih _ (buildEntry_cacheOk env w e h)

theorem call_once_log (env : Env) (w : World) : (call_once env w).log = w.log := by
  unfold call_once
  split
  · rfl
  · exact foldl_buildEntry_log env env.nifMap w

theorem call_once_debris (env : Env) (w : World) (q : Nat) (hq : q < w.nextDebris) :
    (call_once env w).debris q = w.debris q := by
  unfold call_once
  split
  · rfl
  · exact foldl_buildEntry_debris env env.nifMap w q hq

theorem call_once_fileName (env : Env) (w : World) (x : Nat) (hx : x < w.nextData) :
    (call_once env w).fileName x = w.fileName x := by
  unfold call_once
  split
  · rfl
  · exact foldl_buildEntry_fileName env env.nifMap w x hx

theorem call_once_cacheOk (env : Env) (w : World) (h : w.CacheOk) :
    (call_once env w).CacheOk := by
  unfold call_once
  split
  · exact h
  · exact foldl_buildEntry_cacheOk env env.nifMap w h

theorem call_once_init (env : Env) (w : World) : (call_once env w).init = true := by
  unfold call_once
  split
  · assumption
  · rfl

theorem call_once_of_init (env : Env) (w : World) (h : w.init = true) :
    call_once env w = w := by
  simp [call_once, h]

/-! ## Lemmas on the attachment -/

theorem index_of_lookup_some {m : List (LIGHT × Option Nat)} {k : LIGHT} {v : Option Nat}
    (h : m.lookup k = some v) : index m k = (v, m) := by
  simp [index, h]

theorem index_of_lookup_none {m : List (LIGHT × Option Nat)} {k : LIGHT}
    (h : m.lookup k = none) : index m k = (none, m ++ [(k, none)]) := by
  simp [index, h]

theorem lookup_index (m : List (LIGHT × Option Nat)) (k : LIGHT) :
    (index m k).2.lookup k = some (index m k).1 := by
  cases h : m.lookup k with
  | some v => rw [index_of_lookup_some h]; exact h
  | none =>
    rw [index_of_lookup_none h]
    simp [List.lookup_append, h, List.lookup_cons]

theorem index_index (m : List (LIGHT × Option Nat)) (k : LIGHT) :
    index (index m k).2 k = index m k := by
  rw [index_of_lookup_some (lookup_index m k)]

theorem index_fst_some {m : List (LIGHT × Option Nat)} {k : LIGHT} {p : Nat}
    (h : (index m k).1 = some p) : m.lookup k = some (some p) ∧ (index m k).2 = m := by
  cases hl : m.lookup k with
  | some v =>
    rw [index_of_lookup_some hl] at h ⊢
    simp only at h
    exact ⟨by rw [h], rfl⟩
  | none =>
    rw [index_of_lookup_none hl] at h
    exact Option.noConfusion h

theorem find_if_returns {α : Type} (pred : α → Except Fault Bool) (l : List α)
    (h : ∀ a ∈ l, ∃ b, pred a = .ok b) : ∃ b, find_if pred l = .ok b := by
  induction l with
  | nil => exact ⟨false, rfl⟩
  | cons a rest ih =>
    obtain ⟨b, hb⟩ := h a (List.mem_cons_self a rest)
    cases b with
    | true => exact ⟨true, by simp [find_if, hb]⟩
    | false =>
      obtain ⟨b2, hb2⟩ := ih (fun x hx => h x (List.mem_cons_of_mem a hx))
      exact ⟨b2, by simp [find_if, hb, hb2]⟩

theorem matchesDebris_returns (env : Env) (w : World) (p x : Nat) (f : Option Nat)
    (rest : List (Option Nat)) (hp : w.debris p = f :: rest) :
    ∃ b, matchesDebris env w p (some x) = .ok b := by
  simp only [matchesDebris, hp]
  split
  · exact ⟨true, rfl⟩
  · exact ⟨_, rfl⟩

theorem matchesDebris_front (env : Env) (w : World) (p x : Nat) (rest : List (Option Nat))
    (hp : w.debris p = some x :: rest) : matchesDebris env w p (some x) = .ok true := by
  simp only [matchesDebris, hp]
  split
  · rfl
  · simp

theorem logShader_debris (env : Env) (w : World) (s : TESEffectShader) :
    (logShader env w s).debris = w.debris := by
  unfold logShader
  split <;> rfl

theorem logShader_debrisMap (env : Env) (w : World) (s : TESEffectShader) :
    (logShader env w s).debrisMap = w.debrisMap := by
  unfold logShader
  split <;> rfl

theorem logShader_fileName (env : Env) (w : World) (s : TESEffectShader) :
    (logShader env w s).fileName = w.fileName := by
  unfold logShader
  split <;> rfl

theorem logShader_init (env : Env) (w : World) (s : TESEffectShader) :
    (logShader env w s).init = w.init := by
  unfold logShader
  split <;> rfl

/-- The two ways a merge returns: an entry matched and nothing changed, or no entry
matched and the first cached element was prepended. -/
theorem merge_ok (env : Env) (w w1 : World) (q p : Nat) (h : merge env w q p = .ok w1) :
    (find_if (matchesDebris env w p) (w.debris q) = .ok true ∧ w1 = w) ∨
    (∃ f rest, find_if (matchesDebris env w p) (w.debris q) = .ok false ∧
      w.debris p = f :: rest ∧
      w1 = { w with debris := Function.update w.debris q (f :: w.debris q) }) := by
  unfold merge at h
  split at h
  · exact Except.noConfusion h
  · left
    cases h
    exact ⟨by assumption, rfl⟩
  · split at h
    · exact Except.noConfusion h
    · right
      cases h
      exact ⟨_, _, by assumption, by assumption, rfl⟩

theorem merge_init (env : Env) (w w1 : World) (q p : Nat) (h : merge env w q p = .ok w1) :
    w1.init = w.init ∧ w1.debrisMap = w.debrisMap ∧ w1.fileName = w.fileName ∧
      w1.log = w.log := by
  rcases merge_ok env w w1 q p h with ⟨_, rfl⟩ | ⟨f, rest, _, _, rfl⟩
  · exact ⟨rfl, rfl, rfl, rfl⟩
  · exact ⟨rfl, rfl, rfl, rfl⟩

/-- The merge reads the heap only: a world that agrees on it gives the same result. -/
theorem merge_congr (env : Env) (w w2 w1 : World) (q p : Nat)
    (hd : w2.debris = w.debris) (hf : w2.fileName = w.fileName)
    (h : merge env w q p = .ok w1) :
    merge env w2 q p = .ok { w2 with debris := w1.debris } := by
  have hpred : matchesDebris env w2 p = matchesDebris env w p := by
    funext a
    cases a with
    | none => rfl
    | some x => simp only [matchesDebris, hd, hf]
  rcases merge_ok env w w1 q p h with ⟨hfind, rfl⟩ | ⟨f, rest, hfind, hp, rfl⟩
  · simp only [merge, hpred, hd, hfind]
    rw [← hd]
  · simp only [merge, hpred, hd, hfind, hp]

theorem merge_returns (env : Env) (w : World) (q p : Nat) (f : Option Nat)
    (rest : List (Option Nat)) (hp : w.debris p = f :: rest) (hq : none ∉ w.debris q) :
    ∃ w1, merge env w q p = .ok w1 := by
  have hfind : ∃ b, find_if (matchesDebris env w p) (w.debris q) = .ok b := by
    apply find_if_returns
    intro a ha
    cases a with
    | none => exact absurd ha hq
    | some x => exact matchesDebris_returns env w p x f rest hp
  obtain ⟨b, hb⟩ := hfind
  cases b with
  | true => exact ⟨w, by simp only [merge, hb]⟩
  | false =>
    exact ⟨{ w with debris := Function.update w.debris q (f :: w.debris q) },
      by simp only [merge, hb, hp]⟩

theorem merge_of_front (env : Env) (w : World) (p x : Nat) (rest : List (Option Nat))
    (hp : w.debris p = some x :: rest) : merge env w p p = .ok w := by
  unfold merge
  rw [hp]
  simp only [find_if, matchesDebris_front env w p x rest hp]

/-- A merge that returned finds its element again: repeating it changes nothing. -/
theorem merge_again (env : Env) (w w1 : World) (q p x : Nat) (rest : List (Option Nat))
    (hp : w.debris p = some x :: rest) (h : merge env w q p = .ok w1) :
    merge env w1 q p = .ok w1 := by
  rcases merge_ok env w w1 q p h with ⟨_, rfl⟩ | ⟨f, rest2, hfind, hp2, rfl⟩
  · exact h
  · rw [hp] at hp2
    cases hp2
    have hq : ({ w with debris := Function.update w.debris q (some x :: w.debris q) } :
        World).debris q = some x :: w.debris q := by
      simp
    have hp3 : ∃ rest3, ({ w with debris := Function.update w.debris q (some x :: w.debris q) } :
        World).debris p = some x :: rest3 := by
      by_cases hpq : p = q
      · subst hpq
        exact ⟨_, hq⟩
      · exact ⟨rest, by simp [Function.update_noteq hpq, hp]⟩
    obtain ⟨rest3, hp3⟩ := hp3
    have hm := matchesDebris_front env _ p x rest3 hp3
    unfold merge
    rw [hq]
    simp only [find_if, hm]

theorem attach_none (env : Env) (w : World) (s : TESEffectShader) (light : LIGHT)
    (h : s.data.addonModels = none) :
    attach env w s light =
      .ok ({ w with debrisMap := (index w.debrisMap light).2 },
        { s with data := { s.data with addonModels := (index w.debrisMap light).1 } }) := by
  unfold attach
  rw [h]

theorem attach_some_none (env : Env) (w : World) (s : TESEffectShader) (light : LIGHT)
    (q : Nat) (h : s.data.addonModels = some q) (hi : (index w.debrisMap light).1 = none) :
    attach env w s light = .ok ({ w with debrisMap := (index w.debrisMap light).2 }, s) := by
  unfold attach
  rw [h]
  simp only [hi]

theorem attach_some_some (env : Env) (w w1 : World) (s : TESEffectShader) (light : LIGHT)
    (q p : Nat) (h : s.data.addonModels = some q) (hi : (index w.debrisMap light).1 = some p)
    (hm : merge env { w with debrisMap := (index w.debrisMap light).2 } q p = .ok w1) :
    attach env w s light = .ok (w1, s) := by
  unfold attach
  rw [h]
  simp only [hi, hm]

/-- The three ways an attachment returns. -/
theorem attach_ok (env : Env) (w w1 : World) (s s1 : TESEffectShader) (light : LIGHT)
    (h : attach env w s light = .ok (w1, s1)) :
    (s.data.addonModels = none ∧
      w1 = { w with debrisMap := (index w.debrisMap light).2 } ∧
      s1 = { s with data := { s.data with addonModels := (index w.debrisMap light).1 } }) ∨
    (∃ q, s.data.addonModels = some q ∧ (index w.debrisMap light).1 = none ∧
      w1 = { w with debrisMap := (index w.debrisMap light).2 } ∧ s1 = s) ∨
    (∃ q p, s.data.addonModels = some q ∧ (index w.debrisMap light).1 = some p ∧
      merge env { w with debrisMap := (index w.debrisMap light).2 } q p = .ok w1 ∧ s1 = s) := by
  cases ha : s.data.addonModels with
  | none =>
    rw [attach_none env w s light ha] at h
    simp only [Except.ok.injEq, Prod.mk.injEq] at h
    exact Or.inl ⟨rfl, h.1.symm, h.2.symm⟩
  | some q =>
    cases hi : (index w.debrisMap light).1 with
    | none =>
      rw [attach_some_none env w s light q ha hi] at h
      simp only [Except.ok.injEq, Prod.mk.injEq] at h
      exact Or.inr (Or.inl ⟨q, rfl, rfl, h.1.symm, h.2.symm⟩)
    | some p =>
      cases hm : merge env { w with debrisMap := (index w.debrisMap light).2 } q p with
      | error e =>
        unfold attach at h
        rw [ha] at h
        simp only [hi, hm] at h
        exact Except.noConfusion h
      | ok w2 =>
        rw [attach_some_some env w w2 s light q p ha hi hm] at h
        simp only [Except.ok.injEq, Prod.mk.injEq] at h
        exact Or.inr (Or.inr ⟨q, p, rfl, rfl, h.1 ▸ hm, h.2.symm⟩)

theorem attach_init (env : Env) (w w1 : World) (s s1 : TESEffectShader) (light : LIGHT)
    (h : attach env w s light = .ok (w1, s1)) : w1.init = w.init := by
  rcases attach_ok env w w1 s s1 light h with
    ⟨_, rfl, rfl⟩ | ⟨q, _, _, rfl, rfl⟩ | ⟨q, p, _, _, hm, rfl⟩
  · rfl
  · rfl
  · exact (merge_init env _ w1 q p hm).1

/-- An attachment that returned is stable: attaching the same category again, to the
shader and the world it left, returns and changes neither. -/
theorem attach_again (env : Env) (w w1 : World) (s s1 : TESEffectShader) (light : LIGHT)
    (hc : w.CacheOk) (h : attach env w s light = .ok (w1, s1)) :
    attach env w1 s1 light = .ok (w1, s1) := by
  rcases attach_ok env w w1 s s1 light h with
    ⟨ha, rfl, rfl⟩ | ⟨q, ha, hi, rfl, rfl⟩ | ⟨q, p, ha, hi, hm, rfl⟩
  · cases hi : (index w.debrisMap light).1 with
    | none =>
      rw [attach_none env _ _ light (by simp only [hi])]
      simp only [index_index, hi]
    | some p =>
      obtain ⟨hl, _⟩ := index_fst_some hi
      obtain ⟨x, rest, hx⟩ := hc light p hl
      have hidx : index w.debrisMap light = (some p, w.debrisMap) := index_of_lookup_some hl
      simp only [hidx]
      apply attach_some_some env { w with debrisMap := w.debrisMap }
        { w with debrisMap := w.debrisMap } _ light p p rfl (by simp only [hidx])
      simp only [hidx]
      exact merge_of_front env { w with debrisMap := w.debrisMap } p x rest hx
  · have hidx : (index (index w.debrisMap light).2 light).1 = none := by
      rw [index_index, hi]
    rw [attach_some_none env _ s1 light q ha hidx]
    simp only [index_index]
  · obtain ⟨hl, hmap⟩ := index_fst_some hi
    obtain ⟨x, rest, hx⟩ := hc light p hl
    obtain ⟨_, hmap1, _, _⟩ := merge_init env _ w1 q p hm
    have hidx : index w1.debrisMap light = (some p, w1.debrisMap) := by
      rw [hmap1]
      simp only [hmap]
      exact index_of_lookup_some hl
    apply attach_some_some env w1 w1 s1 light q p ha (by rw [hidx])
    rw [hidx]
    have hagain := merge_again env { w with debrisMap := (index w.debrisMap light).2 } w1 q p x
      rest hx hm
    have hw1 : ({ w1 with debrisMap := w1.debrisMap } : World) = w1 := rfl
    rw [hw1]
    exact hagain

/-- The attachment reads the cache, the heap and the shader only: a world that agrees on
them gives the same result. -/
theorem attach_congr (env : Env) (w w2 w1 : World) (s s1 : TESEffectShader) (light : LIGHT)
    (hm : w2.debrisMap = w.debrisMap) (hd : w2.debris = w.debris)
    (hf : w2.fileName = w.fileName) (h : attach env w s light = .ok (w1, s1)) :
    attach env w2 s light =
      .ok ({ w2 with debrisMap := w1.debrisMap, debris := w1.debris }, s1) := by
  rcases attach_ok env w w1 s s1 light h with
    ⟨ha, rfl, rfl⟩ | ⟨q, ha, hi, rfl, rfl⟩ | ⟨q, p, ha, hi, hmg, rfl⟩
  · rw [attach_none env w2 s light ha, hm, ← hd]
  · rw [attach_some_none env w2 s1 light q ha (by rw [hm, hi]), hm, ← hd]
  · obtain ⟨_, hmap1, _, _⟩ := merge_init env _ w1 q p hmg
    have h2 := merge_congr env { w with debrisMap := (index w.debrisMap light).2 }
      { w2 with debrisMap := (index w2.debrisMap light).2 } w1 q p hd hf hmg
    rw [attach_some_some env w2 _ s1 light q p ha (by rw [hm, hi]) h2, hmap1, hm]

theorem attach_returns (env : Env) (w : World) (s : TESEffectShader) (light : LIGHT)
    (hc : w.CacheOk) (hq : ∀ q, s.data.addonModels = some q → none ∉ w.debris q) :
    ∃ out, attach env w s light = .ok out := by
  cases ha : s.data.addonModels with
  | none => exact ⟨_, attach_none env w s light ha⟩
  | some q =>
    cases hi : (index w.debrisMap light).1 with
    | none => exact ⟨_, attach_some_none env w s light q ha hi⟩
    | some p =>
      obtain ⟨hl, _⟩ := index_fst_some hi
      obtain ⟨x, rest, hx⟩ := hc light p hl
      obtain ⟨w1, hw1⟩ := merge_returns env { w with debrisMap := (index w.debrisMap light).2 }
        q p (some x) rest hx (hq q ha)
      exact ⟨(w1, s), attach_some_some env w w1 s light q p ha hi hw1⟩

theorem find_if_true {α : Type} (pred : α → Except Fault Bool) (l : List α)
    (h : find_if pred l = .ok true) : ∃ a ∈ l, pred a = .ok true := by
  induction l with
  | nil => simp [find_if] at h
  | cons a rest ih =>
    unfold find_if at h
    split at h
    · exact Except.noConfusion h
    · exact ⟨a, List.mem_cons_self a rest, by assumption⟩
    · obtain ⟨b, hb, hpb⟩ := ih h
      exact ⟨b, List.mem_cons_of_mem a hb, hpb⟩

theorem matchesDebris_true (env : Env) (w : World) (p : Nat) (a : Option Nat)
    (h : matchesDebris env w p a = .ok true) :
    ∃ y, a = some y ∧ (env.icontains (w.fileName y) "enb\\" = true ∨
      (w.debris p).head? = some (some y)) := by
  cases a with
  | none => simp [matchesDebris] at h
  | some y =>
    refine ⟨y, rfl, ?_⟩
    simp only [matchesDebris] at h
    split at h
    · exact Or.inl (by assumption)
    · split at h
      · exact Except.noConfusion h
      · rename_i f tail hd
        simp only [Except.ok.injEq, decide_eq_true_eq] at h
        right
        rw [hd, ← h]
        rfl

/-! ## Lemmas on `ApplyLight` -/

theorem ApplyLight_of_none (env : Env) (w : World) (s : TESEffectShader)
    (h : resolveLight env s = LIGHT.kNone) :
    ApplyLight env w s = .ok ⟨false, call_once env w, s⟩ := by
  simp [ApplyLight, h]

theorem ApplyLight_of_attach (env : Env) (w w1 : World) (s s1 : TESEffectShader)
    (h : resolveLight env s ≠ LIGHT.kNone)
    (ha : attach env (call_once env w) s (resolveLight env s) = .ok (w1, s1)) :
    ApplyLight env w s = .ok ⟨true, logShader env w1 s1, s1⟩ := by
  simp [ApplyLight, h, ha]

/-- A call that returned for a category other than `kNone` went through the attachment. -/
theorem ApplyLight_ok (env : Env) (w : World) (s : TESEffectShader) (r : Outcome)
    (h : resolveLight env s ≠ LIGHT.kNone) (hr : ApplyLight env w s = .ok r) :
    ∃ w1 s1, attach env (call_once env w) s (resolveLight env s) = .ok (w1, s1) ∧
      r = ⟨true, logShader env w1 s1, s1⟩ := by
  cases ha : attach env (call_once env w) s (resolveLight env s) with
  | error e => simp [ApplyLight, h, ha] at hr
  | ok out =>
    obtain ⟨w1, s1⟩ := out
    rw [ApplyLight_of_attach env w w1 s s1 h ha] at hr
    simp only [Except.ok.injEq] at hr
    exact ⟨w1, s1, rfl, hr.symm⟩

/-- A call returns when the cache is usable and the existing list, if any, is an object
of the heap without a null entry. -/
theorem ApplyLight_returns (env : Env) (w : World) (s : TESEffectShader)
    (hc : w.CacheOk)
    (hq : ∀ q, s.data.addonModels = some q → q < w.nextDebris ∧ none ∉ w.debris q) :
    ∃ r, ApplyLight env w s = .ok r := by
  by_cases h : resolveLight env s = LIGHT.kNone
  · exact ⟨_, ApplyLight_of_none env w s h⟩
  · obtain ⟨out, hout⟩ := attach_returns env (call_once env w) s (resolveLight env s)
      (call_once_cacheOk env w hc)
      (fun q hs => by rw [call_once_debris env w q (hq q hs).1]; exact (hq q hs).2)
    exact ⟨_, ApplyLight_of_attach env w out.1 s out.2 h hout⟩

/-- After an attachment for a category with a cached object at address `p`, the shader
has a list, and the list holds an entry with the marker or the first cached element. -/
theorem attach_attached (env : Env) (w w1 : World) (s s1 : TESEffectShader) (light : LIGHT)
    (p : Nat) (hc : w.CacheOk) (hl : w.debrisMap.lookup light = some (some p))
    (h : attach env w s light = .ok (w1, s1)) :
    ∃ q y, s1.data.addonModels = some q ∧ some y ∈ w1.debris q ∧
      (env.icontains (w1.fileName y) "enb\\" = true ∨
        (w1.debris p).head? = some (some y)) := by
  have hidx : index w.debrisMap light = (some p, w.debrisMap) := index_of_lookup_some hl
  obtain ⟨x, rest, hx⟩ := hc light p hl
  rcases attach_ok env w w1 s s1 light h with
    ⟨_, rfl, rfl⟩ | ⟨q, _, hi, rfl, rfl⟩ | ⟨q, p2, ha, hi, hm, rfl⟩
  · refine ⟨p, x, by simp only [hidx], ?_, Or.inr ?_⟩
    · show some x ∈ w.debris p
      rw [hx]
      exact List.mem_cons_self _ _
    · show (w.debris p).head? = some (some x)
      rw [hx]
      rfl
  · rw [hidx] at hi
    exact Option.noConfusion hi
  · rw [hidx] at hi
    simp only [Option.some.injEq] at hi
    subst hi
    rcases merge_ok env _ w1 q p hm with ⟨hfind, rfl⟩ | ⟨f, rest2, _, hp, rfl⟩
    · obtain ⟨a, hmem, hpa⟩ := find_if_true _ _ hfind
      obtain ⟨y, rfl, hy⟩ := matchesDebris_true env _ p _ hpa
      exact ⟨q, y, ha, hmem, hy⟩
    · have hf : f = some x := by
        have hp2 : w.debris p = f :: rest2 := hp
        rw [hx] at hp2
        simp only [List.cons.injEq] at hp2
        exact hp2.1.symm
      subst hf
      refine ⟨q, x, ha, ?_, Or.inr ?_⟩
      · show some x ∈ Function.update w.debris q (some x :: w.debris q) q
        rw [Function.update_same]
        exact List.mem_cons_self _ _
      · show (Function.update w.debris q (some x :: w.debris q) p).head? = some (some x)
        by_cases hpq : p = q
        · subst hpq
          rw [Function.update_same]
          rfl
        · rw [Function.update_noteq hpq, hx]
          rfl

/-- The function `ApplyLight` uses the reference data of `GetLight` and the override only through the
resolved category: environments that agree on everything else and resolve alike give the
same result. -/
theorem ApplyLight_congr (env env2 : Env) (w : World) (s : TESEffectShader)
    (h1 : env2.icontains = env.icontains) (h2 : env2.nifMap = env.nifMap)
    (h3 : env2.canCreate = env.canCreate) (h4 : env2.get_editorID = env.get_editorID)
    (h5 : env2.IsDynamicForm = env.IsDynamicForm) (h6 : env2.GetFormID = env.GetFormID)
    (h7 : env2.GetLocalFormID = env.GetLocalFormID) (h8 : env2.GetFileName = env.GetFileName)
    (hres : resolveLight env2 s = resolveLight env s) :
    ApplyLight env2 w s = ApplyLight env w s := by
  obtain ⟨ic, ho, cls, ov, nm, cc, ge, dy, gf, gl, gn⟩ := env
  obtain ⟨ic2, ho2, cls2, ov2, nm2, cc2, ge2, dy2, gf2, gl2, gn2⟩ := env2
  simp only at h1 h2 h3 h4 h5 h6 h7 h8
  subst h1 h2 h3 h4 h5 h6 h7 h8
  unfold ApplyLight
  rw [hres]
  rfl

theorem lookup_index_some (m : List (LIGHT × Option Nat)) (light k : LIGHT) (p : Nat)
    (h : (index m light).2.lookup k = some (some p)) : m.lookup k = some (some p) := by
  cases hl : m.lookup light with
  | some v => rwa [index_of_lookup_some hl] at h
  | none =>
    rw [index_of_lookup_none hl, List.lookup_append] at h
    cases hk : m.lookup k with
    | some v =>
      rw [hk] at h
      simpa using h
    | none =>
      rw [hk] at h
      simp only [Option.none_or, List.lookup_cons, List.lookup_nil] at h
      split at h <;> simp at h

/-- The attachment keeps the cache usable. -/
theorem attach_cacheOk (env : Env) (w w1 : World) (s s1 : TESEffectShader) (light : LIGHT)
    (hc : w.CacheOk) (h : attach env w s light = .ok (w1, s1)) : w1.CacheOk := by
  rcases attach_ok env w w1 s s1 light h with
    ⟨_, rfl, rfl⟩ | ⟨q, _, _, rfl, rfl⟩ | ⟨q, p, _, hi, hm, rfl⟩
  · exact fun k p2 hk => hc k p2 (lookup_index_some _ light k p2 hk)
  · exact fun k p2 hk => hc k p2 (lookup_index_some _ light k p2 hk)
  · obtain ⟨hl, hmap⟩ := index_fst_some hi
    obtain ⟨x, rest, hx⟩ := hc light p hl
    rcases merge_ok env _ w1 q p hm with ⟨_, rfl⟩ | ⟨f, rest2, _, hp, rfl⟩
    · exact fun k p2 hk => hc k p2 (lookup_index_some _ light k p2 hk)
    · intro k p2 hk
      have hk2 := hc k p2 (lookup_index_some _ light k p2 hk)
      have hf : f = some x := by
        have hp2 : w.debris p = f :: rest2 := hp
        rw [hx] at hp2
        simp only [List.cons.injEq] at hp2
        exact hp2.1.symm
      subst hf
      show ∃ y tail, Function.update w.debris q (some x :: w.debris q) p2 = some y :: tail
      by_cases hpq : p2 = q
      · subst hpq
        exact ⟨x, _, Function.update_same _ _ _⟩
      · rw [Function.update_noteq hpq]
        exact hk2

/-- A world whose cache is empty is usable, and every call of `ApplyLight` that returns
keeps the cache usable: `World.CacheOk` holds in every state the program reaches. -/
theorem cacheOk_of_empty (w : World) (h : w.debrisMap = []) : w.CacheOk := by
  intro k p hk
  rw [h] at hk
  exact Option.noConfusion hk

theorem ApplyLight_cacheOk (env : Env) (w : World) (s : TESEffectShader) (r : Outcome)
    (hc : w.CacheOk) (hr : ApplyLight env w s = .ok r) : r.world.CacheOk := by
  by_cases hres : resolveLight env s = LIGHT.kNone
  · rw [ApplyLight_of_none env w s hres] at hr
    simp only [Except.ok.injEq] at hr
    subst hr
    exact call_once_cacheOk env w hc
  · obtain ⟨w1, s1, hatt, rfl⟩ := ApplyLight_ok env w s r hres hr
    have h1 := attach_cacheOk env _ w1 s s1 _ (call_once_cacheOk env w hc) hatt
    intro k p hk
    simp only [logShader_debrisMap] at hk
    simp only [logShader_debris]
    exact h1 k p hk

theorem find_if_false {α : Type} (pred : α → Except Fault Bool) (l : List α)
    (h : find_if pred l = .ok false) : ∀ a ∈ l, pred a = .ok false := by
  induction l with
  | nil => intro a ha; cases ha
  | cons b rest ih =>
    unfold find_if at h
    split at h
    · exact Except.noConfusion h
    · simp at h
    · intro a ha
      rcases List.mem_cons.mp ha with rfl | hmem
      · assumption
      · exact ih h a hmem

theorem find_if_of_hit {α : Type} (pred : α → Except Fault Bool) (pre post : List α) (a : α)
    (hpre : ∀ b ∈ pre, ∃ v, pred b = .ok v) (ha : pred a = .ok true) :
    find_if pred (pre ++ a :: post) = .ok true := by
  induction pre with
  | nil => simp [find_if, ha]
  | cons b rest ih =>
    obtain ⟨v, hv⟩ := hpre b (List.mem_cons_self b rest)
    have hrest := ih (fun x hx => hpre x (List.mem_cons_of_mem b hx))
    cases v with
    | true => simp [find_if, hv]
    | false => simp [find_if, hv, hrest]

theorem matchesDebris_marker (env : Env) (w : World) (p y : Nat)
    (h : env.icontains (w.fileName y) "enb\\" = true) :
    matchesDebris env w p (some y) = .ok true := by
  simp [matchesDebris, h]

theorem shader_addonModels_eta (s : TESEffectShader) (a : Option Nat)
    (h : s.data.addonModels = a) :
    ({ s with data := { s.data with addonModels := a } } : TESEffectShader) = s := by
  subst h
  rfl

theorem scanMap_none {has : String → Bool} {map : TextureMap}
    (h : ∀ entry ∈ map, ∀ t ∈ entry.2, has t = false) : scanMap has map = none := by
  simp only [scanMap, Option.map_eq_none', List.find?_eq_none, List.any_eq_true, not_exists,
    not_and, Bool.not_eq_true]
  exact h

theorem scanMap_of_split {has : String → Bool} {pre post : TextureMap} {c : LIGHT}
    {ts : List String} (hpre : ∀ entry ∈ pre, ∀ t ∈ entry.2, has t = false)
    (hhit : ∃ t ∈ ts, has t = true) : scanMap has (pre ++ (c, ts) :: post) = some c := by
  induction pre with
  | nil =>
    have : ts.any has = true := List.any_eq_true.mpr hhit
    simp [scanMap, this]
  | cons e rest ih =>
    have he : e.2.any has = false := by
      rw [Bool.eq_false_iff]
      intro hcon
      obtain ⟨t, ht, hht⟩ := List.any_eq_true.mp hcon
      rw [hpre e (List.mem_cons_self e rest) t ht] at hht
      exact Bool.noConfusion hht
    have hrest := ih (fun x hx => hpre x (List.mem_cons_of_mem e hx))
    simp only [scanMap, List.cons_append, List.find?_cons, he] at hrest ⊢
    exact hrest

theorem blacklisted_false_of (env : Env) (s : TESEffectShader)
    (hb : ∀ texture ∈ env.cls.blacklistedShaders,
      env.icontains s.particleShaderTexture.textureName texture = false ∧
      env.icontains s.fillTexture.textureName texture = false) :
    blacklisted env s = false := by
  rw [Bool.eq_false_iff]
  intro hcon
  simp only [blacklisted, List.any_eq_true, Bool.or_eq_true, has_particle_shader,
    has_membrane_shader] at hcon
  obtain ⟨texture, hmem, hhit⟩ := hcon
  have := hb texture hmem
  rcases hhit with h | h
  · rw [this.1] at h; exact Bool.noConfusion h
  · rw [this.2] at h; exact Bool.noConfusion h

theorem pickMax_single (a : LIGHT) (l : List (LIGHT × Int)) (h : l.Perm [(a, 3)]) :
    pickMax l = a := by
  rw [List.perm_singleton.mp h]
  simp [pickMax]

/-- The frequency vote, for every enumeration order, gives the first category that occurs
twice among the three. -/
theorem byFrequency_majority (env : Env) (horder : env.HashOrderOk)
    (lights : Array3 (LIGHT × Nat))
    (hnd : ¬ (lights.a0.1 ≠ lights.a1.1 ∧ lights.a0.1 ≠ lights.a2.1 ∧
      lights.a1.1 ≠ lights.a2.1)) :
    byFrequency env lights =
      if lights.a0.1 = lights.a1.1 ∨ lights.a0.1 = lights.a2.1 then lights.a0.1
      else lights.a1.1 := by
  unfold byFrequency
  by_cases h01 : lights.a0.1 = lights.a1.1
  · rw [if_pos (Or.inl h01)]
    by_cases h02 : lights.a0.1 = lights.a2.1
    · apply pickMax_single
      have ht : tally (lights.toList.map Prod.fst) = [(lights.a0.1, 3)] := by
        simp [tally, tallyStep, Array3.toList, ← h01, ← h02]
      rw [ht]
      exact horder _
    · apply pickMax_two_one _ lights.a2.1
      have ht : tally (lights.toList.map Prod.fst) = [(lights.a0.1, 2), (lights.a2.1, 1)] := by
        simp [tally, tallyStep, Array3.toList, ← h01, h02]
      rw [ht]
      exact horder _
  · by_cases h02 : lights.a0.1 = lights.a2.1
    · rw [if_pos (Or.inr h02)]
      apply pickMax_two_one _ lights.a1.1
      have ht : tally (lights.toList.map Prod.fst) = [(lights.a0.1, 2), (lights.a1.1, 1)] := by
        simp [tally, tallyStep, Array3.toList, ← h02, h01]
      rw [ht]
      exact horder _
    · have h12 : lights.a1.1 = lights.a2.1 := by
        by_contra hne
        exact hnd ⟨h01, h02, hne⟩
      rw [if_neg (by rintro (h | h); exact h01 h; exact h02 h)]
      apply pickMax_two_one _ lights.a0.1
      have ht : tally (lights.toList.map Prod.fst) = [(lights.a0.1, 1), (lights.a1.1, 2)] := by
        simp [tally, tallyStep, Array3.toList, ← h12, h01]
      rw [ht]
      exact (horder _).trans (List.Perm.swap _ _ _)

/-- Among three categories that are not pairwise distinct, the first one that occurs twice
occurs at least twice and strictly more often than every other category. -/
theorem majority_count (a b c : LIGHT) (hnd : ¬ (a ≠ b ∧ a ≠ c ∧ b ≠ c)) :
    (if a = b ∨ a = c then a else b) ∈ [a, b, c] ∧
    2 ≤ [a, b, c].count (if a = b ∨ a = c then a else b) ∧
    ∀ l, l ≠ (if a = b ∨ a = c then a else b) →
      [a, b, c].count l < [a, b, c].count (if a = b ∨ a = c then a else b) := by
  by_cases hab : a = b
  · subst hab
    simp only [true_or, if_true]
    refine ⟨by simp, by simp [List.count_cons], ?_⟩
    intro l hl
    have h1 : (a == l) = false := by simpa using (Ne.symm hl)
    by_cases hc : c = l
    · subst hc
      have h2 : (c == a) = false := by simpa using hl
      simp [List.count_cons, h1, h2]
    · have h3 : (c == l) = false := by simpa using hc
      by_cases hca : c = a
      · subst hca; simp [List.count_cons, h1]
      · have h2 : (c == a) = false := by simpa using hca
        simp [List.count_cons, h1, h2, h3]
  · by_cases hac : a = c
    · subst hac
      simp only [or_true, if_true]
      have hba : (b == a) = false := by simpa using (Ne.symm hab)
      refine ⟨by simp, by simp [List.count_cons, hba], ?_⟩
      intro l hl
      have h1 : (a == l) = false := by simpa using (Ne.symm hl)
      by_cases hb : b = l
      · subst hb
        simp [List.count_cons, h1, hba]
      · have h3 : (b == l) = false := by simpa using hb
        simp [List.count_cons, h1, hba, h3]
    · have hbc : b = c := by
        by_contra hne
        exact hnd ⟨hab, hac, hne⟩
      subst hbc
      rw [if_neg (by rintro (h | h); exact hab h; exact hac h)]
      have h0 : (a == b) = false := by simpa using hab
      refine ⟨by simp, by simp [List.count_cons, h0], ?_⟩
      intro l hl
      have h1 : (b == l) = false := by simpa using (Ne.symm hl)
      by_cases ha : a = l
      · subst ha
        simp [List.count_cons, h1, h0]
      · have h3 : (a == l) = false := by simpa using ha
        simp [List.count_cons, h1, h0, h3]

/-! ## Lemmas on sequences of calls -/

theorem lookup_some_index (m : List (LIGHT × Option Nat)) (light k : LIGHT) (p : Nat)
    (h : m.lookup k = some (some p)) : (index m light).2.lookup k = some (some p) := by
  cases hl : m.lookup light with
  | some v => rwa [index_of_lookup_some hl]
  | none =>
    rw [index_of_lookup_none hl, List.lookup_append, h]
    rfl

theorem lookup_index_iff (m : List (LIGHT × Option Nat)) (light k : LIGHT) (p : Nat) :
    (index m light).2.lookup k = some (some p) ↔ m.lookup k = some (some p) :=
  ⟨lookup_index_some m light k p, lookup_some_index m light k p⟩

theorem lookup_kNone_index (m : List (LIGHT × Option Nat)) (light : LIGHT)
    (hlight : light ≠ LIGHT.kNone) (h : m.lookup LIGHT.kNone = none) :
    (index m light).2.lookup LIGHT.kNone = none := by
  cases hl : m.lookup light with
  | some v => rwa [index_of_lookup_some hl]
  | none =>
    rw [index_of_lookup_none hl, List.lookup_append, h]
    have hne : (LIGHT.kNone == light) = false := by simpa using (Ne.symm hlight)
    simp [List.lookup_cons, hne]

theorem GetLight_addonModels (env : Env) (s : TESEffectShader) (a : Option Nat) :
    GetLight env { s with data := { s.data with addonModels := a } } = GetLight env s :=
  rfl

theorem resolveLight_addonModels (env : Env) (s : TESEffectShader) (a : Option Nat)
    (hov : ∀ (t : TESEffectShader) (b : Option Nat),
      env.GetOverrideLight { t with data := { t.data with addonModels := b } } =
        env.GetOverrideLight t) :
    resolveLight env { s with data := { s.data with addonModels := a } } =
      resolveLight env s := by
  unfold resolveLight
  simp only [hov s a, GetLight_addonModels]

theorem ApplyLight_call_once (env : Env) (w : World) (s : TESEffectShader) :
    ApplyLight env (call_once env w) s = ApplyLight env w s := by
  unfold ApplyLight
  rw [call_once_of_init env (call_once env w) (call_once_init env w)]

/-- What the cache build keeps true, from an address `b` on: the allocator is past `b`,
`kNone` is no key, and every cached object is one the build allocated and lists exactly
one non-null element. -/
theorem buildEntry_fresh (env : Env) (b : Nat) (w : World) (entry : LIGHT × String)
    (hentry : entry.1 ≠ LIGHT.kNone)
    (h : b ≤ w.nextDebris ∧ w.debrisMap.lookup LIGHT.kNone = none ∧
      ∀ k p, w.debrisMap.lookup k = some (some p) →
        b ≤ p ∧ p < w.nextDebris ∧ ∃ x, w.debris p = [some x]) :
    b ≤ (buildEntry env w entry).nextDebris ∧
    (buildEntry env w entry).debrisMap.lookup LIGHT.kNone = none ∧
    ∀ k p, (buildEntry env w entry).debrisMap.lookup k = some (some p) →
      b ≤ p ∧ p < (buildEntry env w entry).nextDebris ∧
      ∃ x, (buildEntry env w entry).debris p = [some x] := by
  obtain ⟨hb, hnone, hall⟩ := h
  unfold buildEntry
  split
  · have hne : (LIGHT.kNone == entry.1) = false := by simpa using (Ne.symm hentry)
    refine ⟨Nat.le_succ_of_le hb, ?_, ?_⟩
    · show (emplace w.debrisMap entry.1 (some w.nextDebris)).lookup LIGHT.kNone = none
      unfold emplace
      split
      · exact hnone
      · rw [List.lookup_append, hnone]
        simp [List.lookup_cons, hne]
    · intro k p hk
      have hk2 : (emplace w.debrisMap entry.1 (some w.nextDebris)).lookup k =
          some (some p) := hk
      show b ≤ p ∧ p < w.nextDebris + 1 ∧
        ∃ x, Function.update w.debris w.nextDebris [some w.nextData] p = [some x]
      have hold : w.debrisMap.lookup k = some (some p) →
          b ≤ p ∧ p < w.nextDebris + 1 ∧
          ∃ x, Function.update w.debris w.nextDebris [some w.nextData] p = [some x] := by
        intro hl
        obtain ⟨h1, h2, x, hx⟩ := hall k p hl
        exact ⟨h1, Nat.lt_succ_of_lt h2, x,
          by rw [Function.update_noteq (Nat.ne_of_lt h2)]; exact hx⟩
      unfold emplace at hk2
      split at hk2
      · exact hold hk2
      · rw [List.lookup_append] at hk2
        cases hl : w.debrisMap.lookup k with
        | some v =>
          rw [hl] at hk2
          simp only [Option.or_some] at hk2
          exact hold (by rw [hl, hk2])
        | none =>
          rw [hl] at hk2
          simp only [Option.none_or, List.lookup_cons, List.lookup_nil] at hk2
          split at hk2
          · simp only [Option.some.injEq] at hk2
            subst hk2
            exact ⟨hb, Nat.lt_succ_self _, w.nextData, Function.update_same _ _ _⟩
          · exact Option.noConfusion hk2
  · exact ⟨hb, hnone, hall⟩

theorem foldl_buildEntry_fresh (env : Env) (b : Nat) (entries : List (LIGHT × String))
    (w : World) (hentries : ∀ entry ∈ entries, entry.1 ≠ LIGHT.kNone)
    (h : b ≤ w.nextDebris ∧ w.debrisMap.lookup LIGHT.kNone = none ∧
      ∀ k p, w.debrisMap.lookup k = some (some p) →
        b ≤ p ∧ p < w.nextDebris ∧ ∃ x, w.debris p = [some x]) :
    (entries.foldl (buildEntry env) w).debrisMap.lookup LIGHT.kNone = none ∧
    ∀ k p, (entries.foldl (buildEntry env) w).debrisMap.lookup k = some (some p) →
      b ≤ p ∧ ∃ x, (entries.foldl (buildEntry env) w).debris p = [some x] := by
  induction entries generalizing w with
  | nil => exact ⟨h.2.1, fun k p hk => ⟨(h.2.2 k p hk).1, (h.2.2 k p hk).2.2⟩⟩
  | cons e rest ih =>
    exact ih (buildEntry env w e) (fun x hx => hentries x (List.mem_cons_of_mem e hx))
      (buildEntry_fresh env b w e (hentries e (List.mem_cons_self e rest)) h)

/-- The cache as the first call builds it at the start of the program. -/
theorem call_once_fresh (env : Env) (w : World) (hinit : w.init = false)
    (hmap : w.debrisMap = []) (hnif : ∀ entry ∈ env.nifMap, entry.1 ≠ LIGHT.kNone) :
    (call_once env w).debrisMap.lookup LIGHT.kNone = none ∧
    ∀ k p, (call_once env w).debrisMap.lookup k = some (some p) →
      w.nextDebris ≤ p ∧ ∃ x, (call_once env w).debris p = [some x] := by
  unfold call_once
  rw [hinit]
  simp only [Bool.false_eq_true, if_false]
  exact foldl_buildEntry_fresh env w.nextDebris env.nifMap w hnif
    ⟨Nat.le_refl _, by rw [hmap]; rfl, fun k p hk => by rw [hmap] at hk; cases hk⟩

/-- What an attachment changes: the cache keeps its models, and the heap changes at most
at the existing list of the shader, by one non-null element in front, and only when that
list is no cached object. -/
theorem attach_step (env : Env) (w w1 : World) (s s1 : TESEffectShader) (light : LIGHT)
    (hsingle : ∀ k p, w.debrisMap.lookup k = some (some p) → ∃ x, w.debris p = [some x])
    (hown : ∀ q, s.data.addonModels = some q →
      (∀ k, w.debrisMap.lookup k ≠ some (some q)) ∨
      w.debrisMap.lookup light = some (some q))
    (h : attach env w s light = .ok (w1, s1)) :
    w1.debrisMap = (index w.debrisMap light).2 ∧
    (∀ q, w1.debris q = w.debris q ∨
      (s.data.addonModels = some q ∧ (∀ k, w.debrisMap.lookup k ≠ some (some q)) ∧
        ∃ x, w1.debris q = some x :: w.debris q)) ∧
    (s1 = s ∨ (s.data.addonModels = none ∧
      s1 = { s with data := { s.data with addonModels := (index w.debrisMap light).1 } })) := by
  rcases attach_ok env w w1 s s1 light h with
    ⟨ha, rfl, rfl⟩ | ⟨q, _, _, rfl, rfl⟩ | ⟨q, p, ha, hi, hm, rfl⟩
  · exact ⟨rfl, fun q => Or.inl rfl, Or.inr ⟨ha, rfl⟩⟩
  · exact ⟨rfl, fun q => Or.inl rfl, Or.inl rfl⟩
  · obtain ⟨hl, hmap⟩ := index_fst_some hi
    obtain ⟨x, hx⟩ := hsingle light p hl
    obtain ⟨_, hmap1, _, _⟩ := merge_init env _ w1 q p hm
    refine ⟨hmap1, ?_, Or.inl rfl⟩
    rcases merge_ok env _ w1 q p hm with ⟨_, rfl⟩ | ⟨f, rest2, hfind, hp, rfl⟩
    · exact fun q2 => Or.inl rfl
    · have hp2 : w.debris p = f :: rest2 := hp
      rw [hx] at hp2
      simp only [List.cons.injEq] at hp2
      have hf : f = some x := hp2.1.symm
      subst hf
      have hnotcached : ∀ k, w.debrisMap.lookup k ≠ some (some q) := by
        rcases hown q ha with hfree | hsame
        · exact hfree
        · exfalso
          rw [hl] at hsame
          simp only [Option.some.injEq] at hsame
          subst hsame
          have hfront := matchesDebris_front env
            { w with debrisMap := (index w.debrisMap light).2 } p x [] hx
          have hfind2 : find_if (matchesDebris env
              { w with debrisMap := (index w.debrisMap light).2 } p) (w.debris p) =
              .ok false := hfind
          rw [hx] at hfind2
          simp [find_if, hfront] at hfind2
      intro q2
      by_cases hq2 : q2 = q
      · subst hq2
        exact Or.inr ⟨ha, hnotcached, x, Function.update_same _ _ _⟩
      · exact Or.inl (Function.update_noteq hq2 _ _)

/-- One call in a settled game: the game stays settled, the cache keeps exactly its
models, the cached objects keep their lists, and no list gains a null entry. -/
theorem Game.applyLight_step (env : Env) (g g2 : Game) (i : Nat)
    (hov : ∀ (t : TESEffectShader) (b : Option Nat),
      env.GetOverrideLight { t with data := { t.data with addonModels := b } } =
        env.GetOverrideLight t)
    (hs : g.Settled env) (h : g.applyLight env i = .ok g2) :
    g2.Settled env ∧
    (∀ k p, g2.world.debrisMap.lookup k = some (some p) ↔
      g.world.debrisMap.lookup k = some (some p)) ∧
    (∀ k p, g.world.debrisMap.lookup k = some (some p) →
      g2.world.debris p = g.world.debris p) ∧
    (g.NoNull → g2.NoNull) := by
  obtain ⟨hinit, hnone, hsingle, hown⟩ := hs
  unfold Game.applyLight at h
  cases hr : ApplyLight env g.world (g.shaders i) with
  | error e =>
    rw [hr] at h
    exact Except.noConfusion h
  | ok r =>
    rw [hr] at h
    simp only [Except.ok.injEq] at h
    subst h
    by_cases hres : resolveLight env (g.shaders i) = LIGHT.kNone
    · rw [ApplyLight_of_none env g.world (g.shaders i) hres,
        call_once_of_init env g.world hinit] at hr
      simp only [Except.ok.injEq] at hr
      subst hr
      rw [Function.update_eq_self]
      exact ⟨⟨hinit, hnone, hsingle, hown⟩, fun k p => Iff.rfl, fun k p _ => rfl, fun hn => hn⟩
    · obtain ⟨w1, s1, hatt, rfl⟩ := ApplyLight_ok env g.world (g.shaders i) r hres hr
      rw [call_once_of_init env g.world hinit] at hatt
      obtain ⟨hmap, hheap, hshader⟩ := attach_step env g.world w1 (g.shaders i) s1
        (resolveLight env (g.shaders i)) hsingle (hown i) hatt
      have hresolve : resolveLight env s1 = resolveLight env (g.shaders i) := by
        rcases hshader with rfl | ⟨_, rfl⟩
        · rfl
        · exact resolveLight_addonModels env _ _ hov
      have hiff : ∀ k p, w1.debrisMap.lookup k = some (some p) ↔
          g.world.debrisMap.lookup k = some (some p) := by
        intro k p
        rw [hmap]
        exact lookup_index_iff _ _ k p
      have hframe : ∀ k p, g.world.debrisMap.lookup k = some (some p) →
          w1.debris p = g.world.debris p := by
        intro k p hk
        rcases hheap p with hsame | ⟨_, hfree, _⟩
        · exact hsame
        · exact absurd hk (hfree k)
      have hinstalled : ∀ q, s1.data.addonModels = some q →
          (g.shaders i).data.addonModels = some q ∨
          g.world.debrisMap.lookup (resolveLight env (g.shaders i)) = some (some q) := by
        intro q hq
        rcases hshader with rfl | ⟨_, rfl⟩
        · exact Or.inl hq
        · exact Or.inr (index_fst_some hq).1
      simp only [logShader_debrisMap, logShader_debris, logShader_init, Game.Settled,
        Game.NoNull]
      refine ⟨⟨?_, ?_, ?_, ?_⟩, hiff, hframe, ?_⟩
      · rw [attach_init env g.world w1 (g.shaders i) s1 _ hatt]
        exact hinit
      · rw [hmap]
        exact lookup_kNone_index _ _ hres hnone
      · intro k p hk
        have hk2 := (hiff k p).mp hk
        obtain ⟨x, hx⟩ := hsingle k p hk2
        exact ⟨x, by rw [hframe k p hk2]; exact hx⟩
      · intro j q hq
        by_cases hj : j = i
        · subst hj
          rw [Function.update_same] at hq ⊢
          rw [hresolve]
          rcases hinstalled q hq with hold | hnew
          · rcases hown j q hold with hfree | hsame
            · exact Or.inl (fun k hk => hfree k ((hiff k q).mp hk))
            · exact Or.inr ((hiff _ q).mpr hsame)
          · exact Or.inr ((hiff _ q).mpr hnew)
        · rw [Function.update_noteq hj] at hq ⊢
          rcases hown j q hq with hfree | hsame
          · exact Or.inl (fun k hk => hfree k ((hiff k q).mp hk))
          · exact Or.inr ((hiff _ q).mpr hsame)
      · intro hnn j q hq
        have hbase : none ∉ g.world.debris q ∨
            (g.shaders i).data.addonModels = some q → none ∉ w1.debris q := by
          intro hcase
          rcases hheap q with hsame | ⟨hqi, _, x, hx⟩
          · rw [hsame]
            rcases hcase with hc | hc
            · exact hc
            · exact hnn i q hc
          · rw [hx]
            intro hmem
            rcases List.mem_cons.mp hmem with hbad | hbad
            · exact Option.noConfusion hbad
            · exact hnn i q hqi hbad
        by_cases hj : j = i
        · subst hj
          rw [Function.update_same] at hq
          rcases hinstalled q hq with hold | hnew
          · exact hbase (Or.inr hold)
          · obtain ⟨x, hx⟩ := hsingle _ q hnew
            exact hbase (Or.inl (by rw [hx]; simp))
        · rw [Function.update_noteq hj] at hq
          exact hbase (Or.inl (hnn j q hq))

theorem Game.run_settled (env : Env) (calls : List Nat)
    (hov : ∀ (t : TESEffectShader) (b : Option Nat),
      env.GetOverrideLight { t with data := { t.data with addonModels := b } } =
        env.GetOverrideLight t) :
    ∀ g g2 : Game, g.Settled env → Game.run env g calls = .ok g2 →
      g2.Settled env ∧
      (∀ k p, g2.world.debrisMap.lookup k = some (some p) ↔
        g.world.debrisMap.lookup k = some (some p)) ∧
      (∀ k p, g.world.debrisMap.lookup k = some (some p) →
        g2.world.debris p = g.world.debris p) ∧
      (g.NoNull → g2.NoNull) := by
  induction calls with
  | nil =>
    intro g g2 hs h
    simp only [Game.run, Except.ok.injEq] at h
    subst h
    exact ⟨hs, fun k p => Iff.rfl, fun k p _ => rfl, fun hn => hn⟩
  | cons i rest ih =>
    intro g g2 hs h
    unfold Game.run at h
    cases h1 : g.applyLight env i with
    | error e =>
      rw [h1] at h
      exact Except.noConfusion h
    | ok g1 =>
      rw [h1] at h
      obtain ⟨hs1, hiff1, hframe1, hnn1⟩ := Game.applyLight_step env g g1 i hov hs h1
      obtain ⟨hs2, hiff2, hframe2, hnn2⟩ := ih g1 g2 hs1 h
      refine ⟨hs2, fun k p => (hiff2 k p).trans (hiff1 k p), ?_, fun hn => hnn2 (hnn1 hn)⟩
      intro k p hk
      rw [hframe2 k p ((hiff1 k p).mpr hk), hframe1 k p hk]

theorem Game.applyLight_returns (env : Env) (g : Game) (i : Nat)
    (hs : g.Settled env) (hn : g.NoNull) : ∃ g2, g.applyLight env i = .ok g2 := by
  obtain ⟨hinit, _, hsingle, _⟩ := hs
  have hcache : g.world.CacheOk := by
    intro k p hk
    obtain ⟨x, hx⟩ := hsingle k p hk
    exact ⟨x, [], hx⟩
  have hret : ∃ r, ApplyLight env g.world (g.shaders i) = .ok r := by
    by_cases hres : resolveLight env (g.shaders i) = LIGHT.kNone
    · exact ⟨_, ApplyLight_of_none env g.world (g.shaders i) hres⟩
    · obtain ⟨out, hout⟩ := attach_returns env g.world (g.shaders i)
        (resolveLight env (g.shaders i)) hcache (fun q hq => hn i q hq)
      have hout2 : attach env (call_once env g.world) (g.shaders i)
          (resolveLight env (g.shaders i)) = .ok (out.1, out.2) := by
        rw [call_once_of_init env g.world hinit]
        exact hout
      exact ⟨_, ApplyLight_of_attach env g.world out.1 (g.shaders i) out.2 hres hout2⟩
  obtain ⟨r, hr⟩ := hret
  exact ⟨⟨r.world, Function.update g.shaders i r.shader⟩, by simp only [Game.applyLight, hr]⟩

theorem Game.run_returns (env : Env) (calls : List Nat)
    (hov : ∀ (t : TESEffectShader) (b : Option Nat),
      env.GetOverrideLight { t with data := { t.data with addonModels := b } } =
        env.GetOverrideLight t) :
    ∀ g : Game, g.Settled env → g.NoNull → ∃ g2, Game.run env g calls = .ok g2 := by
  induction calls with
  | nil => exact fun g _ _ => ⟨g, rfl⟩
  | cons i rest ih =>
    intro g hs hn
    obtain ⟨g1, h1⟩ := Game.applyLight_returns env g i hs hn
    obtain ⟨hs1, _, _, hnn1⟩ := Game.applyLight_step env g g1 i hov hs h1
    obtain ⟨g2, h2⟩ := ih g1 hs1 (hnn1 hn)
    exact ⟨g2, by simp only [Game.run, h1, h2]⟩

/-- The first call of a run builds the cache: the run equals the run from the state in
which the build has already taken place. -/
theorem Game.run_call_once (env : Env) (g : Game) (i : Nat) (calls : List Nat) :
    Game.run env g (i :: calls) =
      Game.run env ⟨call_once env g.world, g.shaders⟩ (i :: calls) := by
  simp only [Game.run, Game.applyLight, ApplyLight_call_once]

/-- At the start of the program the state with the cache built is settled. -/
theorem Game.settled_of_start (env : Env) (g : Game)
    (hinit : g.world.init = false) (hmap : g.world.debrisMap = [])
    (halloc : ∀ j q, (g.shaders j).data.addonModels = some q → q < g.world.nextDebris)
    (hnif : ∀ entry ∈ env.nifMap, entry.1 ≠ LIGHT.kNone) :
    Game.Settled env ⟨call_once env g.world, g.shaders⟩ := by
  obtain ⟨hnone, hall⟩ := call_once_fresh env g.world hinit hmap hnif
  refine ⟨call_once_init env g.world, hnone, fun k p hk => (hall k p hk).2, ?_⟩
  intro j q hq
  left
  intro k hk
  exact absurd (halloc j q hq) (Nat.not_lt.mpr (hall k q hk).1)

/-! ## Claims on `GetLight` -/

/-- C1: when the particle shader path or the fill path contains a blacklisted substring,
`GetLight` returns `kNone`, whatever the other fields of the effect shader and the other
reference tables are. -/
theorem blacklist_veto (env : Env) (s : TESEffectShader)
    (h : ∃ texture ∈ env.cls.blacklistedShaders,
      env.icontains s.particleShaderTexture.textureName texture = true ∨
      env.icontains s.fillTexture.textureName texture = true) :
    GetLight env s = LIGHT.kNone := by
  obtain ⟨texture, hmem, hhit⟩ := h
  have hb : blacklisted env s = true := by
    simp only [blacklisted, List.any_eq_true, Bool.or_eq_true]
    exact ⟨texture, hmem, hhit⟩
  simp [GetLight, hb]

theorem blacklist_veto_witness :
    (∃ texture ∈ demoEnv.cls.blacklistedShaders,
      demoEnv.icontains vetoedShader.particleShaderTexture.textureName texture = true ∨
      demoEnv.icontains vetoedShader.fillTexture.textureName texture = true) ∧
    GetLight demoEnv vetoedShader = LIGHT.kNone :=
  ⟨⟨"fxnolight", by decide, Or.inl (by decide)⟩,
    blacklist_veto demoEnv vetoedShader ⟨"fxnolight", by decide, Or.inl (by decide)⟩⟩

/-- C2, as stated, fails, in two ways.  In `shockShader` only the membrane shader stage
is eligible, no blacklisted substring occurs, the fill path contains a substring of the
membrane shader table and every matching entry has category `kLight 2`, yet `GetLight`
returns the category of the valid edge colour, `kLight 1`.  In `emberShader` only the
particle shader stage is eligible and its path contains a substring of the particle
shader table, whose matching entries all have category `kLight 1`, yet `GetLight` returns
`kNone` because the path also contains a blacklisted substring. -/
theorem single_stage_table_category_fails :
    ((!shockShader.particlePaletteTexture.textureName.isEmpty &&
        shockShader.data.flags.kParticleGreyscaleColor) = false ∧
      shockShader.particleShaderTexture.textureName.isEmpty = true ∧
      shockShader.fillTexture.textureName.isEmpty = false ∧
      (!shockShader.membranePaletteTexture.textureName.isEmpty &&
        shockShader.data.flags.kGreyscaleToColor) = false ∧
      blacklisted demoEnv shockShader = false ∧
      demoEnv.cls.membraneShaderMap.find?
        (fun entry => entry.2.any (demoEnv.icontains shockShader.fillTexture.textureName)) =
        some (LIGHT.kLight 2, ["shock"]) ∧
      (∀ entry ∈ demoEnv.cls.membraneShaderMap,
        entry.2.any (demoEnv.icontains shockShader.fillTexture.textureName) = true →
        entry.1 = LIGHT.kLight 2) ∧
      GetLight demoEnv shockShader = LIGHT.kLight 1 ∧
      GetLight demoEnv shockShader ≠ LIGHT.kLight 2) ∧
    ((!emberShader.particlePaletteTexture.textureName.isEmpty &&
        emberShader.data.flags.kParticleGreyscaleColor) = false ∧
      emberShader.particleShaderTexture.textureName.isEmpty = false ∧
      emberShader.fillTexture.textureName.isEmpty = true ∧
      (!emberShader.membranePaletteTexture.textureName.isEmpty &&
        emberShader.data.flags.kGreyscaleToColor) = false ∧
      demoEnv.cls.particleShaderMap.find?
        (fun entry =>
          entry.2.any (demoEnv.icontains emberShader.particleShaderTexture.textureName)) =
        some (LIGHT.kLight 1, ["ember"]) ∧
      (∀ entry ∈ demoEnv.cls.particleShaderMap,
        entry.2.any (demoEnv.icontains emberShader.particleShaderTexture.textureName) = true →
        entry.1 = LIGHT.kLight 1) ∧
      GetLight demoEnv emberShader = LIGHT.kNone ∧
      GetLight demoEnv emberShader ≠ LIGHT.kLight 1) := by
  decide

/-- C2, amended: when exactly one of the four texture stages is eligible, no blacklisted
substring occurs in the particle shader path or the fill path, and `(c, ts)` is the first
entry of the stage's table with a substring contained in the stage's path, `GetLight`
returns `c` for the particle palette and the particle shader stage, and for the two
membrane stages it returns `c` when the edge colour is invalid and the category of the
edge colour when it is valid. -/
theorem single_eligible_stage (env : Env) (s : TESEffectShader) (c : LIGHT) (ts : List String)
    (hb : ∀ texture ∈ env.cls.blacklistedShaders,
      env.icontains s.particleShaderTexture.textureName texture = false ∧
      env.icontains s.fillTexture.textureName texture = false) :
    ((s.particlePaletteTexture.textureName.isEmpty = false ∧
        s.data.flags.kParticleGreyscaleColor = true) ∧
      s.particleShaderTexture.textureName.isEmpty = true ∧
      s.fillTexture.textureName.isEmpty = true ∧
      ¬ (s.membranePaletteTexture.textureName.isEmpty = false ∧
        s.data.flags.kGreyscaleToColor = true) ∧
      env.cls.paletteMap.find?
        (fun entry => entry.2.any (env.icontains s.particlePaletteTexture.textureName)) =
        some (c, ts) →
      GetLight env s = c) ∧
    (¬ (s.particlePaletteTexture.textureName.isEmpty = false ∧
        s.data.flags.kParticleGreyscaleColor = true) ∧
      s.particleShaderTexture.textureName.isEmpty = false ∧
      s.fillTexture.textureName.isEmpty = true ∧
      ¬ (s.membranePaletteTexture.textureName.isEmpty = false ∧
        s.data.flags.kGreyscaleToColor = true) ∧
      env.cls.particleShaderMap.find?
        (fun entry => entry.2.any (env.icontains s.particleShaderTexture.textureName)) =
        some (c, ts) →
      GetLight env s = c) ∧
    (¬ (s.particlePaletteTexture.textureName.isEmpty = false ∧
        s.data.flags.kParticleGreyscaleColor = true) ∧
      s.particleShaderTexture.textureName.isEmpty = true ∧
      s.fillTexture.textureName.isEmpty = false ∧
      ¬ (s.membranePaletteTexture.textureName.isEmpty = false ∧
        s.data.flags.kGreyscaleToColor = true) ∧
      env.cls.membraneShaderMap.find?
        (fun entry => entry.2.any (env.icontains s.fillTexture.textureName)) =
        some (c, ts) →
      GetLight env s =
        if env.cls.is_invalid_color s.data.edgeColor = true then c
        else (env.cls.get_light_by_color s.data.edgeColor).1) ∧
    (¬ (s.particlePaletteTexture.textureName.isEmpty = false ∧
        s.data.flags.kParticleGreyscaleColor = true) ∧
      s.particleShaderTexture.textureName.isEmpty = true ∧
      s.fillTexture.textureName.isEmpty = true ∧
      (s.membranePaletteTexture.textureName.isEmpty = false ∧
        s.data.flags.kGreyscaleToColor = true) ∧
      env.cls.paletteMap.find?
        (fun entry => entry.2.any (env.icontains s.membranePaletteTexture.textureName)) =
        some (c, ts) →
      GetLight env s =
        if env.cls.is_invalid_color s.data.edgeColor = true then c
        else (env.cls.get_light_by_color s.data.edgeColor).1) := by
  have hbl : blacklisted env s = false := by
    rw [Bool.eq_false_iff]
    intro hcon
    simp only [blacklisted, List.any_eq_true, Bool.or_eq_true, has_particle_shader,
      has_membrane_shader] at hcon
    obtain ⟨texture, hmem, hhit⟩ := hcon
    have := hb texture hmem
    rcases hhit with h | h
    · rw [this.1] at h; exact Bool.noConfusion h
    · rw [this.2] at h; exact Bool.noConfusion h
  refine ⟨?_, ?_, ?_, ?_⟩
  · rintro ⟨⟨hp, hf⟩, _, _, _, hfind⟩
    have hs : particlePaletteStage env s = some c := by
      unfold particlePaletteStage
      rw [hp, hf]
      simpa using scanMap_of_find hfind
    simp [GetLight, hbl, hs]
  · rintro ⟨he1, hp, _, _, hfind⟩
    have h1 : particlePaletteStage env s = none := by
      unfold particlePaletteStage
      rw [if_neg]
      simpa using he1
    have hs : particleShaderStage env s = some c := by
      unfold particleShaderStage
      rw [hp]
      simpa using scanMap_of_find hfind
    simp [GetLight, hbl, h1, hs]
  · rintro ⟨he1, hp, hfill, _, hfind⟩
    have h1 : particlePaletteStage env s = none := by
      unfold particlePaletteStage
      rw [if_neg]
      simpa using he1
    have h2 : particleShaderStage env s = none := by
      simp [particleShaderStage, hp]
    have hs : membraneShaderStage env s = some (edgeOverride env s c) := by
      unfold membraneShaderStage
      rw [hfill]
      have hfun : has_membrane_shader env s = env.icontains s.fillTexture.textureName := rfl
      rw [hfun, scanMap_of_find hfind]
      simp
    simp only [GetLight, hbl, h1, h2, hs]
    cases hinv : env.cls.is_invalid_color s.data.edgeColor <;> simp [edgeOverride, hinv]
  · rintro ⟨he1, hp, hfill, ⟨hm, hg⟩, hfind⟩
    have h1 : particlePaletteStage env s = none := by
      unfold particlePaletteStage
      rw [if_neg]
      simpa using he1
    have h2 : particleShaderStage env s = none := by
      simp [particleShaderStage, hp]
    have h3 : membraneShaderStage env s = none := by
      simp [membraneShaderStage, hfill]
    have hs : membranePaletteStage env s = some (edgeOverride env s c) := by
      unfold membranePaletteStage
      rw [hm, hg]
      have hfun :
          has_membrane_palette env s = env.icontains s.membranePaletteTexture.textureName := rfl
      rw [hfun, scanMap_of_find hfind]
      simp
    simp only [GetLight, hbl, h1, h2, h3, hs]
    cases hinv : env.cls.is_invalid_color s.data.edgeColor <;> simp [edgeOverride, hinv]

theorem single_eligible_stage_witness :
    (∀ texture ∈ demoEnv.cls.blacklistedShaders,
      demoEnv.icontains shockShader.particleShaderTexture.textureName texture = false ∧
      demoEnv.icontains shockShader.fillTexture.textureName texture = false) ∧
    GetLight demoEnv shockShader =
      (if demoEnv.cls.is_invalid_color shockShader.data.edgeColor = true then LIGHT.kLight 2
        else (demoEnv.cls.get_light_by_color shockShader.data.edgeColor).1) :=
  ⟨by decide,
    (single_eligible_stage demoEnv shockShader (LIGHT.kLight 2) ["shock"] (by decide)).2.2.1
      (by decide)⟩

/-- C3: when no earlier stage returns (no blacklist hit, the particle palette stage and
the particle shader stage do not return), the fill path is non-empty and `(c, ts)` is the
first entry of the membrane shader table with a substring contained in it, `GetLight`
returns the category of the edge colour when that colour is valid, and `c` when it is
invalid. -/
theorem membrane_shader_edge_override (env : Env) (s : TESEffectShader) (c : LIGHT)
    (ts : List String)
    (hb : blacklisted env s = false)
    (h1 : particlePaletteStage env s = none)
    (h2 : particleShaderStage env s = none)
    (hfill : s.fillTexture.textureName.isEmpty = false)
    (hfind : env.cls.membraneShaderMap.find?
      (fun entry => entry.2.any (env.icontains s.fillTexture.textureName)) = some (c, ts)) :
    (env.cls.is_invalid_color s.data.edgeColor = false →
      GetLight env s = (env.cls.get_light_by_color s.data.edgeColor).1) ∧
    (env.cls.is_invalid_color s.data.edgeColor = true → GetLight env s = c) := by
  have hs : membraneShaderStage env s = some (edgeOverride env s c) := by
    unfold membraneShaderStage
    have hfun : has_membrane_shader env s = env.icontains s.fillTexture.textureName := rfl
    rw [hfill, hfun, scanMap_of_find hfind]
    simp
  constructor
  · intro hinv
    simp [GetLight, hb, h1, h2, hs, edgeOverride, hinv]
  · intro hinv
    simp [GetLight, hb, h1, h2, hs, edgeOverride, hinv]

theorem membrane_shader_edge_override_witness :
    blacklisted demoEnv shockShader = false ∧
    particlePaletteStage demoEnv shockShader = none ∧
    particleShaderStage demoEnv shockShader = none ∧
    shockShader.fillTexture.textureName.isEmpty = false ∧
    demoEnv.cls.membraneShaderMap.find?
      (fun entry => entry.2.any (demoEnv.icontains shockShader.fillTexture.textureName)) =
      some (LIGHT.kLight 2, ["shock"]) ∧
    demoEnv.cls.is_invalid_color shockShader.data.edgeColor = false ∧
    GetLight demoEnv shockShader =
      (demoEnv.cls.get_light_by_color shockShader.data.edgeColor).1 :=
  ⟨by decide, by decide, by decide, by decide, by decide, by decide,
    (membrane_shader_edge_override demoEnv shockShader (LIGHT.kLight 2) ["shock"]
      (by decide) (by decide) (by decide) (by decide) (by decide)).1 (by decide)⟩

/-- C4: when neither the blacklist nor any of the four texture stages returns, the key
colours are valid and resolve to three pairwise distinct categories, `GetLight` returns
the category of the key colour with the least distance, and among equal least distances
that of the earliest key colour. -/
theorem nearest_colour_vote (env : Env) (s : TESEffectShader)
    (hb : blacklisted env s = false)
    (h1 : particlePaletteStage env s = none) (h2 : particleShaderStage env s = none)
    (h3 : membraneShaderStage env s = none) (h4 : membranePaletteStage env s = none)
    (hvalid : env.cls.is_invalid_colors (keyColors s) = false)
    (h01 : (env.cls.get_lights_by_color (keyColors s)).a0.1 ≠
      (env.cls.get_lights_by_color (keyColors s)).a1.1)
    (h02 : (env.cls.get_lights_by_color (keyColors s)).a0.1 ≠
      (env.cls.get_lights_by_color (keyColors s)).a2.1)
    (h12 : (env.cls.get_lights_by_color (keyColors s)).a1.1 ≠
      (env.cls.get_lights_by_color (keyColors s)).a2.1) :
    ((env.cls.get_lights_by_color (keyColors s)).a0.2 ≤
        (env.cls.get_lights_by_color (keyColors s)).a1.2 ∧
      (env.cls.get_lights_by_color (keyColors s)).a0.2 ≤
        (env.cls.get_lights_by_color (keyColors s)).a2.2 →
      GetLight env s = (env.cls.get_lights_by_color (keyColors s)).a0.1) ∧
    ((env.cls.get_lights_by_color (keyColors s)).a1.2 <
        (env.cls.get_lights_by_color (keyColors s)).a0.2 ∧
      (env.cls.get_lights_by_color (keyColors s)).a1.2 ≤
        (env.cls.get_lights_by_color (keyColors s)).a2.2 →
      GetLight env s = (env.cls.get_lights_by_color (keyColors s)).a1.1) ∧
    ((env.cls.get_lights_by_color (keyColors s)).a2.2 <
        (env.cls.get_lights_by_color (keyColors s)).a0.2 ∧
      (env.cls.get_lights_by_color (keyColors s)).a2.2 <
        (env.cls.get_lights_by_color (keyColors s)).a1.2 →
      GetLight env s = (env.cls.get_lights_by_color (keyColors s)).a2.1) := by
  rw [GetLight_of_stages_none env s hb h1 h2 h3 h4]
  simp only [colorStage, hvalid, Bool.not_false, if_true]
  rw [if_pos ⟨h01, h02, h12⟩]
  generalize env.cls.get_lights_by_color (keyColors s) = lights
  simp only [byDistance, min_element, Array3.toList, List.foldl_cons, List.foldl_nil]
  refine ⟨?_, ?_, ?_⟩
  · rintro ⟨ha, hb⟩
    have e1 : ¬ lights.a1.2 < lights.a0.2 := by omega
    have e2 : ¬ lights.a2.2 < lights.a0.2 := by omega
    simp [e1, e2]
  · rintro ⟨ha, hb⟩
    have e2 : ¬ lights.a2.2 < lights.a1.2 := by omega
    simp [ha, e2]
  · rintro ⟨ha, hb⟩
    by_cases e1 : lights.a1.2 < lights.a0.2
    · simp [e1, hb]
    · simp [e1, ha]

theorem nearest_colour_vote_witness :
    blacklisted demoEnv distinctShader = false ∧
    particlePaletteStage demoEnv distinctShader = none ∧
    particleShaderStage demoEnv distinctShader = none ∧
    membraneShaderStage demoEnv distinctShader = none ∧
    membranePaletteStage demoEnv distinctShader = none ∧
    demoEnv.cls.is_invalid_colors (keyColors distinctShader) = false ∧
    demoEnv.cls.get_lights_by_color (keyColors distinctShader) =
      ⟨(LIGHT.kLight 2, 105), (LIGHT.kLight 1, 15), (LIGHT.kLight 3, 55)⟩ ∧
    GetLight demoEnv distinctShader = LIGHT.kLight 1 :=
  ⟨by decide, by decide, by decide, by decide, by decide, by decide, by decide,
    (nearest_colour_vote demoEnv distinctShader (by decide) (by decide) (by decide)
      (by decide) (by decide) (by decide) (by decide) (by decide) (by decide)).2.1
      (by decide)⟩

/-- C5: when neither the blacklist nor any of the four texture stages returns, the key
colours are valid and exactly two of them resolve to the same category, `GetLight`
returns that shared category, whatever the three distances are, whichever positions the
two agreeing colours occupy and in whatever order the tally map is enumerated. -/
theorem majority_vote (env : Env) (s : TESEffectShader)
    (horder : env.HashOrderOk)
    (hb : blacklisted env s = false)
    (h1 : particlePaletteStage env s = none) (h2 : particleShaderStage env s = none)
    (h3 : membraneShaderStage env s = none) (h4 : membranePaletteStage env s = none)
    (hvalid : env.cls.is_invalid_colors (keyColors s) = false) :
    ((env.cls.get_lights_by_color (keyColors s)).a0.1 =
        (env.cls.get_lights_by_color (keyColors s)).a1.1 ∧
      (env.cls.get_lights_by_color (keyColors s)).a2.1 ≠
        (env.cls.get_lights_by_color (keyColors s)).a0.1 →
      GetLight env s = (env.cls.get_lights_by_color (keyColors s)).a0.1) ∧
    ((env.cls.get_lights_by_color (keyColors s)).a0.1 =
        (env.cls.get_lights_by_color (keyColors s)).a2.1 ∧
      (env.cls.get_lights_by_color (keyColors s)).a1.1 ≠
        (env.cls.get_lights_by_color (keyColors s)).a0.1 →
      GetLight env s = (env.cls.get_lights_by_color (keyColors s)).a0.1) ∧
    ((env.cls.get_lights_by_color (keyColors s)).a1.1 =
        (env.cls.get_lights_by_color (keyColors s)).a2.1 ∧
      (env.cls.get_lights_by_color (keyColors s)).a0.1 ≠
        (env.cls.get_lights_by_color (keyColors s)).a1.1 →
      GetLight env s = (env.cls.get_lights_by_color (keyColors s)).a1.1) := by
  rw [GetLight_of_stages_none env s hb h1 h2 h3 h4]
  simp only [colorStage, hvalid, Bool.not_false, if_true]
  generalize env.cls.get_lights_by_color (keyColors s) = lights
  refine ⟨?_, ?_, ?_⟩
  · rintro ⟨he, hne⟩
    rw [if_neg (fun h => h.1 he)]
    apply pickMax_two_one _ lights.a2.1
    have ht : tally (lights.toList.map Prod.fst) = [(lights.a0.1, 2), (lights.a2.1, 1)] := by
      simp [tally, tallyStep, Array3.toList, ← he, Ne.symm hne]
    rw [ht]
    exact horder _
  · rintro ⟨he, hne⟩
    rw [if_neg (fun h => h.2.1 he)]
    apply pickMax_two_one _ lights.a1.1
    have ht : tally (lights.toList.map Prod.fst) = [(lights.a0.1, 2), (lights.a1.1, 1)] := by
      simp [tally, tallyStep, Array3.toList, ← he, Ne.symm hne]
    rw [ht]
    exact horder _
  · rintro ⟨he, hne⟩
    rw [if_neg (fun h => h.2.2 he)]
    have ht : tally (lights.toList.map Prod.fst) = [(lights.a0.1, 1), (lights.a1.1, 2)] := by
      simp [tally, tallyStep, Array3.toList, ← he, hne]
    apply pickMax_two_one _ lights.a0.1
    rw [ht]
    exact (horder _).trans (List.Perm.swap _ _ _)

theorem majority_vote_witness :
    demoEnv.HashOrderOk ∧
    blacklisted demoEnv majorityShader = false ∧
    particlePaletteStage demoEnv majorityShader = none ∧
    particleShaderStage demoEnv majorityShader = none ∧
    membraneShaderStage demoEnv majorityShader = none ∧
    membranePaletteStage demoEnv majorityShader = none ∧
    demoEnv.cls.is_invalid_colors (keyColors majorityShader) = false ∧
    demoEnv.cls.get_lights_by_color (keyColors majorityShader) =
      ⟨(LIGHT.kLight 2, 105), (LIGHT.kLight 1, 15), (LIGHT.kLight 2, 145)⟩ ∧
    GetLight demoEnv majorityShader = LIGHT.kLight 2 :=
  ⟨fun m => List.Perm.refl m, by decide, by decide, by decide, by decide, by decide,
    by decide, by decide,
    (majority_vote demoEnv majorityShader (fun m => List.Perm.refl m) (by decide) (by decide)
      (by decide) (by decide) (by decide) (by decide)).2.1 ⟨by decide, by decide⟩⟩

/-- C15: classification is total with default `kNone`.  `GetLight` gives a category for
every environment and shader; and when no blacklisted substring occurs, no eligible
texture stage has a path containing a substring of its table, the key colours are invalid
and the edge colour is invalid, that category is `kNone`. -/
theorem classification_default (env : Env) (s : TESEffectShader)
    (hb : ∀ texture ∈ env.cls.blacklistedShaders,
      env.icontains s.particleShaderTexture.textureName texture = false ∧
      env.icontains s.fillTexture.textureName texture = false)
    (h1 : s.particlePaletteTexture.textureName.isEmpty = false ∧
        s.data.flags.kParticleGreyscaleColor = true →
      ∀ entry ∈ env.cls.paletteMap, ∀ t ∈ entry.2,
        env.icontains s.particlePaletteTexture.textureName t = false)
    (h2 : s.particleShaderTexture.textureName.isEmpty = false →
      ∀ entry ∈ env.cls.particleShaderMap, ∀ t ∈ entry.2,
        env.icontains s.particleShaderTexture.textureName t = false)
    (h3 : s.fillTexture.textureName.isEmpty = false →
      ∀ entry ∈ env.cls.membraneShaderMap, ∀ t ∈ entry.2,
        env.icontains s.fillTexture.textureName t = false)
    (h4 : s.membranePaletteTexture.textureName.isEmpty = false ∧
        s.data.flags.kGreyscaleToColor = true →
      ∀ entry ∈ env.cls.paletteMap, ∀ t ∈ entry.2,
        env.icontains s.membranePaletteTexture.textureName t = false)
    (hkeys : env.cls.is_invalid_colors (keyColors s) = true)
    (hedge : env.cls.is_invalid_color s.data.edgeColor = true) :
    (∀ (env2 : Env) (s2 : TESEffectShader), ∃ light, GetLight env2 s2 = light) ∧
    GetLight env s = LIGHT.kNone := by
  refine ⟨fun env2 s2 => ⟨GetLight env2 s2, rfl⟩, ?_⟩
  have e1 : particlePaletteStage env s = none := by
    unfold particlePaletteStage
    split
    · rename_i hcond
      simp only [Bool.and_eq_true, Bool.not_eq_true'] at hcond
      exact scanMap_none (h1 hcond)
    · rfl
  have e2 : particleShaderStage env s = none := by
    unfold particleShaderStage
    split
    · rename_i hcond
      simp only [Bool.not_eq_true'] at hcond
      exact scanMap_none (h2 hcond)
    · rfl
  have e3 : membraneShaderStage env s = none := by
    unfold membraneShaderStage
    split
    · rename_i hcond
      simp only [Bool.not_eq_true'] at hcond
      have hscan : scanMap (has_membrane_shader env s) env.cls.membraneShaderMap = none :=
        scanMap_none (h3 hcond)
      rw [hscan]
      rfl
    · rfl
  have e4 : membranePaletteStage env s = none := by
    unfold membranePaletteStage
    split
    · rename_i hcond
      simp only [Bool.and_eq_true, Bool.not_eq_true'] at hcond
      have hscan : scanMap (has_membrane_palette env s) env.cls.paletteMap = none :=
        scanMap_none (h4 hcond)
      rw [hscan]
      rfl
    · rfl
  rw [GetLight_of_stages_none env s (blacklisted_false_of env s hb) e1 e2 e3 e4]
  simp [colorStage, hkeys, hedge]

theorem classification_default_witness :
    demoEnv.cls.is_invalid_colors (keyColors paletteOffShader) = true ∧
    demoEnv.cls.is_invalid_color paletteOffShader.data.edgeColor = true ∧
    (∀ (env2 : Env) (s2 : TESEffectShader), ∃ light, GetLight env2 s2 = light) ∧
    GetLight demoEnv paletteOffShader = LIGHT.kNone :=
  ⟨by decide, by decide,
    classification_default demoEnv paletteOffShader (by decide)
      (fun h => absurd h.2 (by decide)) (fun h => absurd h (by decide))
      (fun h => absurd h (by decide)) (fun h => absurd h.2 (by decide))
      (by decide) (by decide)⟩

/-- C17: the palette stages are gated by their flag.  With `kParticleGreyscaleColor`
unset, `GetLight` returns what it returns for the same shader with an empty particle
palette path; with `kGreyscaleToColor` unset, what it returns for the same shader with an
empty membrane palette path. -/
theorem palette_flag_gate (env : Env) (s : TESEffectShader) :
    (s.data.flags.kParticleGreyscaleColor = false →
      GetLight env s = GetLight env { s with particlePaletteTexture := ⟨""⟩ }) ∧
    (s.data.flags.kGreyscaleToColor = false →
      GetLight env s = GetLight env { s with membranePaletteTexture := ⟨""⟩ }) := by
  constructor
  · intro hflag
    have e1 : particlePaletteStage env s = none := by
      simp [particlePaletteStage, hflag]
    have e2 : particlePaletteStage env { s with particlePaletteTexture := ⟨""⟩ } = none := by
      simp [particlePaletteStage, hflag]
    unfold GetLight
    rw [e1, e2]
    rfl
  · intro hflag
    have e1 : membranePaletteStage env s = none := by
      simp [membranePaletteStage, hflag]
    have e2 : membranePaletteStage env { s with membranePaletteTexture := ⟨""⟩ } = none := by
      simp [membranePaletteStage, hflag]
    unfold GetLight
    rw [e1, e2]
    rfl

theorem palette_flag_gate_witness :
    paletteOffShader.data.flags.kParticleGreyscaleColor = false ∧
    paletteOffShader.data.flags.kGreyscaleToColor = false ∧
    GetLight demoEnv paletteOffShader =
      GetLight demoEnv { paletteOffShader with particlePaletteTexture := ⟨""⟩ } ∧
    GetLight demoEnv paletteOffShader =
      GetLight demoEnv { paletteOffShader with membranePaletteTexture := ⟨""⟩ } ∧
    GetLight demoEnv
      { paletteOffShader with
        data := { paletteOffShader.data with flags := ⟨true, false⟩ } } = LIGHT.kLight 1 :=
  ⟨by decide, by decide, (palette_flag_gate demoEnv paletteOffShader).1 (by decide),
    (palette_flag_gate demoEnv paletteOffShader).2 (by decide), by decide⟩

/-- C18: first match wins in the particle shader stage.  When no blacklisted substring
occurs, the particle palette stage does not return, the particle shader path is non-empty
and `(c, ts)` is the first entry of the particle shader table, in iteration order, with a
substring contained in that path, `GetLight` returns `c`, whatever the membrane paths,
the key colours and the edge colour are. -/
theorem particle_shader_first_match (env : Env) (s : TESEffectShader) (c : LIGHT)
    (ts : List String) (pre post : TextureMap)
    (hb : ∀ texture ∈ env.cls.blacklistedShaders,
      env.icontains s.particleShaderTexture.textureName texture = false ∧
      env.icontains s.fillTexture.textureName texture = false)
    (h1 : particlePaletteStage env s = none)
    (hne : s.particleShaderTexture.textureName.isEmpty = false)
    (hsplit : env.cls.particleShaderMap = pre ++ (c, ts) :: post)
    (hpre : ∀ entry ∈ pre, ∀ t ∈ entry.2,
      env.icontains s.particleShaderTexture.textureName t = false)
    (hhit : ∃ t ∈ ts, env.icontains s.particleShaderTexture.textureName t = true) :
    GetLight env s = c := by
  have hs : particleShaderStage env s = some c := by
    unfold particleShaderStage
    rw [hne, hsplit]
    exact scanMap_of_split hpre hhit
  simp [GetLight, blacklisted_false_of env s hb, h1, hs]

theorem particle_shader_first_match_witness :
    particlePaletteStage demoEnv snowEmberShader = none ∧
    snowEmberShader.particleShaderTexture.textureName.isEmpty = false ∧
    demoEnv.cls.particleShaderMap =
      [] ++ (LIGHT.kLight 1, ["ember"]) :: [(LIGHT.kLight 2, ["snow"])] ∧
    demoEnv.icontains snowEmberShader.particleShaderTexture.textureName "snow" = true ∧
    GetLight demoEnv snowEmberShader = LIGHT.kLight 1 :=
  ⟨by decide, by decide, by decide, by decide,
    particle_shader_first_match demoEnv snowEmberShader (LIGHT.kLight 1) ["ember"] []
      [(LIGHT.kLight 2, ["snow"])] (by decide) (by decide) (by decide) (by decide)
      (by decide) ⟨"ember", by decide, by decide⟩⟩

/-- C20: the frequency vote has no ties.  When neither the blacklist nor a texture stage
returns, the key colours are valid and their three categories are not pairwise distinct,
one category `m` among the three occurs at least twice and strictly more often than every
other category, and `GetLight` returns `m` for the enumeration order of the environment
and for every other enumeration order of the tally map. -/
theorem frequency_vote_no_ties (env : Env) (s : TESEffectShader)
    (horder : env.HashOrderOk)
    (hb : blacklisted env s = false)
    (h1 : particlePaletteStage env s = none) (h2 : particleShaderStage env s = none)
    (h3 : membraneShaderStage env s = none) (h4 : membranePaletteStage env s = none)
    (hvalid : env.cls.is_invalid_colors (keyColors s) = false)
    (hnd : ¬ ((env.cls.get_lights_by_color (keyColors s)).a0.1 ≠
        (env.cls.get_lights_by_color (keyColors s)).a1.1 ∧
      (env.cls.get_lights_by_color (keyColors s)).a0.1 ≠
        (env.cls.get_lights_by_color (keyColors s)).a2.1 ∧
      (env.cls.get_lights_by_color (keyColors s)).a1.1 ≠
        (env.cls.get_lights_by_color (keyColors s)).a2.1)) :
    ∃ m,
      m ∈ [(env.cls.get_lights_by_color (keyColors s)).a0.1,
        (env.cls.get_lights_by_color (keyColors s)).a1.1,
        (env.cls.get_lights_by_color (keyColors s)).a2.1] ∧
      2 ≤ [(env.cls.get_lights_by_color (keyColors s)).a0.1,
        (env.cls.get_lights_by_color (keyColors s)).a1.1,
        (env.cls.get_lights_by_color (keyColors s)).a2.1].count m ∧
      (∀ l, l ≠ m →
        [(env.cls.get_lights_by_color (keyColors s)).a0.1,
          (env.cls.get_lights_by_color (keyColors s)).a1.1,
          (env.cls.get_lights_by_color (keyColors s)).a2.1].count l <
        [(env.cls.get_lights_by_color (keyColors s)).a0.1,
          (env.cls.get_lights_by_color (keyColors s)).a1.1,
          (env.cls.get_lights_by_color (keyColors s)).a2.1].count m) ∧
      GetLight env s = m ∧
      (∀ order2 : List (LIGHT × Int) → List (LIGHT × Int),
        (∀ t, (order2 t).Perm t) → GetLight { env with hashOrder := order2 } s = m) := by
  have hcount := majority_count (env.cls.get_lights_by_color (keyColors s)).a0.1
    (env.cls.get_lights_by_color (keyColors s)).a1.1
    (env.cls.get_lights_by_color (keyColors s)).a2.1 hnd
  have hvote : ∀ env2 : Env, env2.HashOrderOk → env2.cls = env.cls →
      blacklisted env2 s = false → particlePaletteStage env2 s = none →
      particleShaderStage env2 s = none → membraneShaderStage env2 s = none →
      membranePaletteStage env2 s = none →
      GetLight env2 s =
        if (env.cls.get_lights_by_color (keyColors s)).a0.1 =
            (env.cls.get_lights_by_color (keyColors s)).a1.1 ∨
          (env.cls.get_lights_by_color (keyColors s)).a0.1 =
            (env.cls.get_lights_by_color (keyColors s)).a2.1
        then (env.cls.get_lights_by_color (keyColors s)).a0.1
        else (env.cls.get_lights_by_color (keyColors s)).a1.1 := by
    intro env2 ho hcls e0 e1 e2 e3 e4
    rw [GetLight_of_stages_none env2 s e0 e1 e2 e3 e4]
    simp only [colorStage, hcls, hvalid, Bool.not_false, if_true]
    rw [if_neg hnd]
    exact byFrequency_majority env2 ho _ hnd
  refine ⟨_, hcount.1, hcount.2.1, hcount.2.2, hvote env horder rfl hb h1 h2 h3 h4, ?_⟩
  intro order2 ho2
  exact hvote { env with hashOrder := order2 } ho2 rfl hb h1 h2 h3 h4

theorem frequency_vote_no_ties_witness :
    demoEnv.HashOrderOk ∧
    blacklisted demoEnv majorityShader = false ∧
    demoEnv.cls.is_invalid_colors (keyColors majorityShader) = false ∧
    demoEnv.cls.get_lights_by_color (keyColors majorityShader) =
      ⟨(LIGHT.kLight 2, 105), (LIGHT.kLight 1, 15), (LIGHT.kLight 2, 145)⟩ ∧
    GetLight { demoEnv with hashOrder := List.reverse } majorityShader = LIGHT.kLight 2 ∧
    ∃ m,
      m ∈ [(demoEnv.cls.get_lights_by_color (keyColors majorityShader)).a0.1,
        (demoEnv.cls.get_lights_by_color (keyColors majorityShader)).a1.1,
        (demoEnv.cls.get_lights_by_color (keyColors majorityShader)).a2.1] ∧
      2 ≤ [(demoEnv.cls.get_lights_by_color (keyColors majorityShader)).a0.1,
        (demoEnv.cls.get_lights_by_color (keyColors majorityShader)).a1.1,
        (demoEnv.cls.get_lights_by_color (keyColors majorityShader)).a2.1].count m ∧
      (∀ l, l ≠ m →
        [(demoEnv.cls.get_lights_by_color (keyColors majorityShader)).a0.1,
          (demoEnv.cls.get_lights_by_color (keyColors majorityShader)).a1.1,
          (demoEnv.cls.get_lights_by_color (keyColors majorityShader)).a2.1].count l <
        [(demoEnv.cls.get_lights_by_color (keyColors majorityShader)).a0.1,
          (demoEnv.cls.get_lights_by_color (keyColors majorityShader)).a1.1,
          (demoEnv.cls.get_lights_by_color (keyColors majorityShader)).a2.1].count m) ∧
      GetLight demoEnv majorityShader = m ∧
      (∀ order2 : List (LIGHT × Int) → List (LIGHT × Int),
        (∀ t, (order2 t).Perm t) →
        GetLight { demoEnv with hashOrder := order2 } majorityShader = m) :=
  ⟨fun m => List.Perm.refl m, by decide, by decide, by decide, by decide,
    frequency_vote_no_ties demoEnv majorityShader (fun m => List.Perm.refl m) (by decide)
      (by decide) (by decide) (by decide) (by decide) (by decide) (by decide)⟩

/-! ## Claims on `ApplyLight` -/

/-- C6: `ApplyLight` is idempotent on the addon-model list.  With a usable cache and a
resolved category `c` other than `kNone`, the first call returns when the existing list
(if any) has no null entry; and whenever the first call returned and the second call
resolves to `c` as well, the second call returns `true` and leaves the shader and its
addon-model list exactly as the first call left them, whether the shader started with no
list or with one. -/
theorem applyLight_twice (env : Env) (w : World) (s : TESEffectShader) (c : LIGHT)
    (hcache : w.CacheOk) (hc : c ≠ LIGHT.kNone) (hres : resolveLight env s = c) :
    ((∀ q, s.data.addonModels = some q → q < w.nextDebris ∧ none ∉ w.debris q) →
      ∃ r1, ApplyLight env w s = .ok r1) ∧
    (∀ r1, ApplyLight env w s = .ok r1 → resolveLight env r1.shader = c →
      ∃ r2, ApplyLight env r1.world r1.shader = .ok r2 ∧ r2.ret = true ∧
        r2.shader = r1.shader ∧
        addonList r2.world r2.shader = addonList r1.world r1.shader) := by
  refine ⟨fun hq => ApplyLight_returns env w s hcache hq, ?_⟩
  intro r1 hr1 hres2
  subst hres
  obtain ⟨w1, s1, hatt, rfl⟩ := ApplyLight_ok env w s r1 hc hr1
  simp only at hres2 ⊢
  have hinit : (logShader env w1 s1).init = true := by
    rw [logShader_init, attach_init env _ w1 s s1 _ hatt, call_once_init]
  have hagain := attach_again env _ w1 s s1 _ (call_once_cacheOk env w hcache) hatt
  have hcongr := attach_congr env w1 (logShader env w1 s1) w1 s1 s1 (resolveLight env s)
    (logShader_debrisMap env w1 s1) (logShader_debris env w1 s1)
    (logShader_fileName env w1 s1) hagain
  have hsecond := ApplyLight_of_attach env (logShader env w1 s1) _ s1 s1
    (by rw [hres2]; exact hc)
    (by rw [call_once_of_init env _ hinit, hres2]; exact hcongr)
  refine ⟨_, hsecond, rfl, rfl, ?_⟩
  simp only [addonList, logShader_debris]

theorem applyLight_twice_witness :
    gameWorld.CacheOk ∧ resolveLight demoEnv listedShader = LIGHT.kLight 1 ∧
    ((∀ q, listedShader.data.addonModels = some q →
        q < gameWorld.nextDebris ∧ none ∉ gameWorld.debris q) →
      ∃ r1, ApplyLight demoEnv gameWorld listedShader = .ok r1) ∧
    (∀ r1, ApplyLight demoEnv gameWorld listedShader = .ok r1 →
      resolveLight demoEnv r1.shader = LIGHT.kLight 1 →
      ∃ r2, ApplyLight demoEnv r1.world r1.shader = .ok r2 ∧ r2.ret = true ∧
        r2.shader = r1.shader ∧
        addonList r2.world r2.shader = addonList r1.world r1.shader) ∧
    (∃ r1, ApplyLight demoEnv gameWorld listedShader = .ok r1 ∧
      addonList r1.world r1.shader = some [some 1, some 0]) :=
  ⟨fun _ _ h => Option.noConfusion h, by decide,
    (applyLight_twice demoEnv gameWorld listedShader (LIGHT.kLight 1)
      (fun _ _ h => Option.noConfusion h) (by decide) (by decide)).1,
    (applyLight_twice demoEnv gameWorld listedShader (LIGHT.kLight 1)
      (fun _ _ h => Option.noConfusion h) (by decide) (by decide)).2,
    ⟨_, rfl, rfl⟩⟩

/-- C7: when the override lookup and `GetLight` both give `kNone`, `ApplyLight` returns
`false`, leaves every field of the effect shader and its addon-model list as they were,
and sends nothing to the log; the heap objects that existed before the call keep their
contents (the first call still builds the cache). -/
theorem applyLight_none (env : Env) (w : World) (s : TESEffectShader)
    (hov : env.GetOverrideLight s = LIGHT.kNone) (hget : GetLight env s = LIGHT.kNone)
    (halloc : ∀ q, s.data.addonModels = some q → q < w.nextDebris) :
    ∃ r, ApplyLight env w s = .ok r ∧ r.ret = false ∧ r.shader = s ∧
      addonList r.world r.shader = addonList w s ∧ r.world.log = w.log ∧
      (∀ q, q < w.nextDebris → r.world.debris q = w.debris q) ∧
      (∀ x, x < w.nextData → r.world.fileName x = w.fileName x) ∧
      (w.init = true → r.world = w) := by
  have hres : resolveLight env s = LIGHT.kNone := by
    simp [resolveLight, hov, hget]
  refine ⟨_, ApplyLight_of_none env w s hres, rfl, rfl, ?_, call_once_log env w,
    fun q hq => call_once_debris env w q hq, fun x hx => call_once_fileName env w x hx,
    fun hi => call_once_of_init env w hi⟩
  simp only [addonList]
  cases ha : s.data.addonModels with
  | none => rfl
  | some q => simp only [Option.map_some', call_once_debris env w q (halloc q ha)]

theorem applyLight_none_witness :
    demoEnv.GetOverrideLight plainListedShader = LIGHT.kNone ∧
    GetLight demoEnv plainListedShader = LIGHT.kNone ∧
    (∀ q, plainListedShader.data.addonModels = some q → q < gameWorld.nextDebris) ∧
    ∃ r, ApplyLight demoEnv gameWorld plainListedShader = .ok r ∧ r.ret = false ∧
      r.shader = plainListedShader ∧
      addonList r.world r.shader = addonList gameWorld plainListedShader ∧
      r.world.log = gameWorld.log ∧
      (∀ q, q < gameWorld.nextDebris → r.world.debris q = gameWorld.debris q) ∧
      (∀ x, x < gameWorld.nextData → r.world.fileName x = gameWorld.fileName x) ∧
      (gameWorld.init = true → r.world = gameWorld) :=
  ⟨by decide, by decide, by decide,
    applyLight_none demoEnv gameWorld plainListedShader (by decide) (by decide) (by decide)⟩

/-- C8, as stated, fails: with a form factory that yields no object, `ApplyLight` on
`distinctShader` (resolved category `kLight 1`) returns `true` although the shader has no
addon-model list after the call. -/
theorem applyLight_true_without_model :
    resolveLight noFactoryEnv distinctShader = LIGHT.kLight 1 ∧
    ∃ r, ApplyLight noFactoryEnv gameWorld distinctShader = .ok r ∧ r.ret = true ∧
      r.shader.data.addonModels = none ∧ addonList r.world r.shader = none :=
  ⟨by decide, _, rfl, rfl, rfl, rfl⟩

/-- C8, amended: with a usable cache, `ApplyLight` returns when the existing list (if any)
has no null entry; whenever it returns, it returns `false` exactly when the resolved
category is `kNone` and `true` exactly when it is not; and when it returns `true` for a
category that has a cached model at address `p`, the shader has an addon-model list after
the call and that list holds an entry whose file name contains the marker or that is the
first element of the cached model. -/
theorem applyLight_return_value (env : Env) (w : World) (s : TESEffectShader)
    (hcache : w.CacheOk) :
    ((∀ q, s.data.addonModels = some q → q < w.nextDebris ∧ none ∉ w.debris q) →
      ∃ r, ApplyLight env w s = .ok r) ∧
    (∀ r, ApplyLight env w s = .ok r →
      (r.ret = false ↔ resolveLight env s = LIGHT.kNone) ∧
      (r.ret = true ↔ resolveLight env s ≠ LIGHT.kNone) ∧
      (∀ p, r.ret = true →
        (call_once env w).debrisMap.lookup (resolveLight env s) = some (some p) →
        ∃ q y, r.shader.data.addonModels = some q ∧ some y ∈ r.world.debris q ∧
          (env.icontains (r.world.fileName y) "enb\\" = true ∨
            (r.world.debris p).head? = some (some y)))) := by
  refine ⟨fun hq => ApplyLight_returns env w s hcache hq, ?_⟩
  intro r hr
  by_cases hres : resolveLight env s = LIGHT.kNone
  · rw [ApplyLight_of_none env w s hres] at hr
    simp only [Except.ok.injEq] at hr
    subst hr
    simp [hres]
  · obtain ⟨w1, s1, hatt, rfl⟩ := ApplyLight_ok env w s r hres hr
    refine ⟨by simp [hres], by simp [hres], ?_⟩
    intro p _ hl
    simp only [logShader_debris, logShader_fileName]
    exact attach_attached env _ w1 s s1 _ p (call_once_cacheOk env w hcache) hl hatt

theorem applyLight_return_value_witness :
    gameWorld.CacheOk ∧
    ((∀ q, listedShader.data.addonModels = some q →
        q < gameWorld.nextDebris ∧ none ∉ gameWorld.debris q) →
      ∃ r, ApplyLight demoEnv gameWorld listedShader = .ok r) ∧
    (∀ r, ApplyLight demoEnv gameWorld listedShader = .ok r →
      (r.ret = false ↔ resolveLight demoEnv listedShader = LIGHT.kNone) ∧
      (r.ret = true ↔ resolveLight demoEnv listedShader ≠ LIGHT.kNone) ∧
      (∀ p, r.ret = true →
        (call_once demoEnv gameWorld).debrisMap.lookup (resolveLight demoEnv listedShader) =
          some (some p) →
        ∃ q y, r.shader.data.addonModels = some q ∧ some y ∈ r.world.debris q ∧
          (demoEnv.icontains (r.world.fileName y) "enb\\" = true ∨
            (r.world.debris p).head? = some (some y)))) :=
  ⟨fun _ _ h => Option.noConfusion h,
    applyLight_return_value demoEnv gameWorld listedShader (fun _ _ h => Option.noConfusion h)⟩

/-- C9: when the override lookup gives a category other than `kNone`, that category is
the resolved one and the result of `ApplyLight` (return value, shader, cache, heap and
log) does not depend on the reference data of `GetLight`, and equals the result in an
environment without override whose `GetLight` gives that category; when the override
lookup gives `kNone`, the resolved category is the one `GetLight` gives. -/
theorem override_precedence (env : Env) (cls2 : Classifier)
    (order2 : List (LIGHT × Int) → List (LIGHT × Int))
    (override2 : TESEffectShader → LIGHT) (w : World) (s : TESEffectShader) :
    (env.GetOverrideLight s ≠ LIGHT.kNone →
      resolveLight env s = env.GetOverrideLight s ∧
      ApplyLight { env with cls := cls2, hashOrder := order2 } w s = ApplyLight env w s ∧
      (override2 s = LIGHT.kNone →
        GetLight { env with cls := cls2, hashOrder := order2, GetOverrideLight := override2 } s =
          env.GetOverrideLight s →
        ApplyLight { env with cls := cls2, hashOrder := order2, GetOverrideLight := override2 }
          w s = ApplyLight env w s)) ∧
    (env.GetOverrideLight s = LIGHT.kNone → resolveLight env s = GetLight env s) := by
  constructor
  · intro hov
    have hres : resolveLight env s = env.GetOverrideLight s := by
      simp [resolveLight, hov]
    refine ⟨hres, ?_, ?_⟩
    · apply ApplyLight_congr env { env with cls := cls2, hashOrder := order2 } w s
        rfl rfl rfl rfl rfl rfl rfl rfl
      rw [hres]
      simp [resolveLight, hov]
    · intro h2 hget
      apply ApplyLight_congr env
        { env with cls := cls2, hashOrder := order2, GetOverrideLight := override2 } w s
        rfl rfl rfl rfl rfl rfl rfl rfl
      rw [hres]
      simp only [resolveLight, h2, if_true]
      exact hget
  · intro hov
    simp [resolveLight, hov]

theorem override_precedence_witness :
    overrideEnv.GetOverrideLight listedShader ≠ LIGHT.kNone ∧
    resolveLight overrideEnv listedShader = LIGHT.kLight 3 ∧
    GetLight overrideEnv listedShader = LIGHT.kLight 1 ∧
    ApplyLight { overrideEnv with cls := demoClassifier, hashOrder := List.reverse }
      gameWorld listedShader = ApplyLight overrideEnv gameWorld listedShader :=
  ⟨by decide, by decide, by decide,
    ((override_precedence overrideEnv demoClassifier List.reverse (fun _ => LIGHT.kNone)
      gameWorld listedShader).1 (by decide)).2.1⟩

/-- C10: when the shader has no addon-model list and the resolved category `c`, other
than `kNone`, has a cached model at address `p`, `ApplyLight` returns `true` and the
shader's addon models are the cached object itself: the pointer is `p`, and the call
changes neither the heap nor the cache. -/
theorem install_on_empty (env : Env) (w : World) (s : TESEffectShader) (c : LIGHT) (p : Nat)
    (hnone : s.data.addonModels = none) (hres : resolveLight env s = c)
    (hc : c ≠ LIGHT.kNone)
    (hcached : (call_once env w).debrisMap.lookup c = some (some p)) :
    ∃ r, ApplyLight env w s = .ok r ∧ r.ret = true ∧
      r.shader = { s with data := { s.data with addonModels := some p } } ∧
      addonList r.world r.shader = some ((call_once env w).debris p) ∧
      r.world.debris = (call_once env w).debris ∧
      r.world.fileName = (call_once env w).fileName ∧
      r.world.debrisMap = (call_once env w).debrisMap := by
  subst hres
  have hidx := index_of_lookup_some hcached
  have hatt := attach_none env (call_once env w) s (resolveLight env s) hnone
  rw [hidx] at hatt
  refine ⟨_, ApplyLight_of_attach env w _ s _ hc hatt, rfl, rfl, ?_, ?_, ?_, ?_⟩
  · simp only [addonList, logShader_debris, Option.map_some']
  · simp only [logShader_debris]
  · simp only [logShader_fileName]
  · simp only [logShader_debrisMap]

theorem install_on_empty_witness :
    distinctShader.data.addonModels = none ∧
    resolveLight demoEnv distinctShader = LIGHT.kLight 1 ∧
    (call_once demoEnv gameWorld).debrisMap.lookup (LIGHT.kLight 1) = some (some 1) ∧
    ∃ r, ApplyLight demoEnv gameWorld distinctShader = .ok r ∧ r.ret = true ∧
      r.shader =
        { distinctShader with data := { distinctShader.data with addonModels := some 1 } } ∧
      addonList r.world r.shader = some ((call_once demoEnv gameWorld).debris 1) ∧
      r.world.debris = (call_once demoEnv gameWorld).debris ∧
      r.world.fileName = (call_once demoEnv gameWorld).fileName ∧
      r.world.debrisMap = (call_once demoEnv gameWorld).debrisMap :=
  ⟨by decide, by decide, by decide,
    install_on_empty demoEnv gameWorld distinctShader (LIGHT.kLight 1) 1 (by decide)
      (by decide) (by decide) (by decide)⟩

/-- C11: merge by prepend.  When the shader has a list `L` (an object of the heap whose
entries are allocated), the resolved category `c`, other than `kNone`, has a cached model
at address `p` with first element `e`, no entry of `L` has a file name containing the
marker and no entry of `L` is `e`, every call of `ApplyLight` that returns leaves the
shader with the list `e :: L`; and the call returns when `L` has no null entry. -/
theorem merge_by_prepend (env : Env) (w : World) (s : TESEffectShader) (c : LIGHT)
    (q p : Nat) (e : Option Nat) (rest : List (Option Nat))
    (hq : s.data.addonModels = some q) (halloc : q < w.nextDebris)
    (hdata : ∀ y, some y ∈ w.debris q → y < w.nextData)
    (hres : resolveLight env s = c) (hc : c ≠ LIGHT.kNone)
    (hcached : (call_once env w).debrisMap.lookup c = some (some p))
    (hfront : (call_once env w).debris p = e :: rest)
    (hmarker : ∀ y, some y ∈ w.debris q → env.icontains (w.fileName y) "enb\\" = false)
    (hnot : e ∉ w.debris q) :
    (none ∉ w.debris q → ∃ r, ApplyLight env w s = .ok r) ∧
    (∀ r, ApplyLight env w s = .ok r →
      r.ret = true ∧ r.shader = s ∧ addonList r.world r.shader = some (e :: w.debris q)) := by
  subst hres
  have hidx := index_of_lookup_some hcached
  have hdq := call_once_debris env w q halloc
  constructor
  · intro hnull
    have hm := merge_returns env
      { call_once env w with debrisMap := (index (call_once env w).debrisMap
        (resolveLight env s)).2 } q p e rest hfront (by
          show none ∉ (call_once env w).debris q
          rw [hdq]
          exact hnull)
    obtain ⟨w1, hw1⟩ := hm
    exact ⟨_, ApplyLight_of_attach env w w1 s s hc
      (attach_some_some env _ w1 s _ q p hq (by rw [hidx]) hw1)⟩
  · intro r hr
    obtain ⟨w1, s1, hatt, rfl⟩ := ApplyLight_ok env w s r hc hr
    rcases attach_ok env _ w1 s s1 _ hatt with
      ⟨ha, _, _⟩ | ⟨q2, _, hi, _, _⟩ | ⟨q2, p2, ha, hi, hm, rfl⟩
    · rw [hq] at ha
      exact Option.noConfusion ha
    · rw [hidx] at hi
      exact Option.noConfusion hi
    · rw [hq] at ha
      rw [hidx] at hi
      simp only [Option.some.injEq] at ha hi
      subst ha hi
      refine ⟨rfl, rfl, ?_⟩
      simp only [addonList, hq, Option.map_some', logShader_debris, Option.some.injEq]
      rcases merge_ok env _ w1 q p hm with ⟨hfind, _⟩ | ⟨f, rest2, _, hp, rfl⟩
      · exfalso
        obtain ⟨a, hmem, hpa⟩ := find_if_true _ _ hfind
        have hmem2 : a ∈ w.debris q := by
          have : a ∈ (call_once env w).debris q := hmem
          rwa [hdq] at this
        obtain ⟨y, rfl, hy⟩ := matchesDebris_true env _ p _ hpa
        rcases hy with hy | hy
        · have hfn : (call_once env w).fileName y = w.fileName y :=
            call_once_fileName env w y (hdata y hmem2)
          have hy2 : env.icontains ((call_once env w).fileName y) "enb\\" = true := hy
          rw [hfn, hmarker y hmem2] at hy2
          exact Bool.noConfusion hy2
        · have hy2 : ((call_once env w).debris p).head? = some (some y) := hy
          rw [hfront] at hy2
          simp only [List.head?_cons, Option.some.injEq] at hy2
          exact hnot (hy2 ▸ hmem2)
      · have hp2 : (call_once env w).debris p = f :: rest2 := hp
        rw [hfront] at hp2
        simp only [List.cons.injEq] at hp2
        show Function.update (call_once env w).debris q (f :: (call_once env w).debris q) q =
          e :: w.debris q
        rw [Function.update_same, hdq, hp2.1]

theorem merge_by_prepend_witness :
    listedShader.data.addonModels = some 0 ∧ 0 < gameWorld.nextDebris ∧
    resolveLight demoEnv listedShader = LIGHT.kLight 1 ∧
    (call_once demoEnv gameWorld).debrisMap.lookup (LIGHT.kLight 1) = some (some 1) ∧
    (call_once demoEnv gameWorld).debris 1 = [some 1] ∧
    some 1 ∉ gameWorld.debris 0 ∧
    (∃ r, ApplyLight demoEnv gameWorld listedShader = .ok r) ∧
    (∀ r, ApplyLight demoEnv gameWorld listedShader = .ok r →
      r.ret = true ∧ r.shader = listedShader ∧
      addonList r.world r.shader = some (some 1 :: gameWorld.debris 0)) :=
  ⟨by decide, by decide, by decide, by decide, by decide, by decide,
    (merge_by_prepend demoEnv gameWorld listedShader (LIGHT.kLight 1) 0 1 (some 1) []
      (by decide) (by decide)
      (fun y hy => by
        have h0 : y = 0 := by simpa [gameWorld] using hy
        subst h0
        decide)
      (by decide) (by decide) (by decide) (by decide)
      (fun y hy => by
        have h0 : y = 0 := by simpa [gameWorld] using hy
        subst h0
        decide)
      (by decide)).1 (by decide),
    (merge_by_prepend demoEnv gameWorld listedShader (LIGHT.kLight 1) 0 1 (some 1) []
      (by decide) (by decide)
      (fun y hy => by
        have h0 : y = 0 := by simpa [gameWorld] using hy
        subst h0
        decide)
      (by decide) (by decide) (by decide) (by decide)
      (fun y hy => by
        have h0 : y = 0 := by simpa [gameWorld] using hy
        subst h0
        decide)
      (by decide)).2⟩

/-- C12: externally managed lists are never touched.  When the shader's list (an object
of the heap) holds an allocated entry `y` whose file name contains the marker, every call
of `ApplyLight` that returns, for every resolved category and every cache, leaves the
shader and the entries of its list as they were; and with a usable cache the call returns
when no null entry precedes `y` in the list. -/
theorem marked_list_untouched (env : Env) (w : World) (s : TESEffectShader) (q y : Nat)
    (hq : s.data.addonModels = some q) (halloc : q < w.nextDebris)
    (hy : some y ∈ w.debris q) (hyd : y < w.nextData)
    (hmark : env.icontains (w.fileName y) "enb\\" = true) :
    (∀ pre post, w.CacheOk → w.debris q = pre ++ some y :: post → none ∉ pre →
      ∃ r, ApplyLight env w s = .ok r) ∧
    (∀ r, ApplyLight env w s = .ok r →
      r.shader = s ∧ r.world.debris q = w.debris q ∧
      addonList r.world r.shader = addonList w s) := by
  have hdq := call_once_debris env w q halloc
  have hfn := call_once_fileName env w y hyd
  have hmatch : ∀ (m : List (LIGHT × Option Nat)) (p : Nat),
      matchesDebris env { call_once env w with debrisMap := m } p (some y) = .ok true := by
    intro m p
    apply matchesDebris_marker
    show env.icontains ((call_once env w).fileName y) "enb\\" = true
    rw [hfn]
    exact hmark
  constructor
  · intro pre post hcache hsplit hpre
    by_cases hres : resolveLight env s = LIGHT.kNone
    · exact ⟨_, ApplyLight_of_none env w s hres⟩
    · cases hi : (index (call_once env w).debrisMap (resolveLight env s)).1 with
      | none =>
        exact ⟨_, ApplyLight_of_attach env w _ s s hres
          (attach_some_none env _ s _ q hq hi)⟩
      | some p =>
        obtain ⟨hl, _⟩ := index_fst_some hi
        obtain ⟨x, rest, hx⟩ := call_once_cacheOk env w hcache _ p hl
        have hfind : find_if
            (matchesDebris env { call_once env w with debrisMap :=
              (index (call_once env w).debrisMap (resolveLight env s)).2 } p)
            ((call_once env w).debris q) = .ok true := by
          rw [hdq, hsplit]
          apply find_if_of_hit _ pre post (some y) _ (hmatch _ p)
          intro b hb
          cases b with
          | none => exact absurd hb hpre
          | some z => exact matchesDebris_returns env _ p z (some x) rest hx
        have hm : merge env { call_once env w with debrisMap :=
            (index (call_once env w).debrisMap (resolveLight env s)).2 } q p =
            .ok { call_once env w with debrisMap :=
              (index (call_once env w).debrisMap (resolveLight env s)).2 } := by
          unfold merge
          simp only [hfind]
        exact ⟨_, ApplyLight_of_attach env w _ s s hres
          (attach_some_some env _ _ s _ q p hq hi hm)⟩
  · intro r hr
    have hgoal : r.shader = s ∧ r.world.debris q = w.debris q := by
      by_cases hres : resolveLight env s = LIGHT.kNone
      · rw [ApplyLight_of_none env w s hres] at hr
        simp only [Except.ok.injEq] at hr
        subst hr
        exact ⟨rfl, hdq⟩
      · obtain ⟨w1, s1, hatt, rfl⟩ := ApplyLight_ok env w s r hres hr
        simp only [logShader_debris]
        rcases attach_ok env _ w1 s s1 _ hatt with
          ⟨ha, _, _⟩ | ⟨q2, _, _, rfl, rfl⟩ | ⟨q2, p, ha, _, hm, rfl⟩
        · rw [hq] at ha
          exact Option.noConfusion ha
        · exact ⟨rfl, hdq⟩
        · rw [hq] at ha
          simp only [Option.some.injEq] at ha
          subst ha
          refine ⟨rfl, ?_⟩
          rcases merge_ok env _ w1 q p hm with ⟨_, rfl⟩ | ⟨f, rest2, hfind, _, _⟩
          · exact hdq
          · exfalso
            have hmem : some y ∈ (call_once env w).debris q := by
              rw [hdq]
              exact hy
            have hfalse := find_if_false _ _ hfind (some y) hmem
            rw [hmatch _ p] at hfalse
            simp at hfalse
    refine ⟨hgoal.1, hgoal.2, ?_⟩
    simp only [addonList, hgoal.1, hq, Option.map_some', hgoal.2]

theorem marked_list_untouched_witness :
    listedShader.data.addonModels = some 0 ∧ 0 < enbWorld.nextDebris ∧
    some 0 ∈ enbWorld.debris 0 ∧ 0 < enbWorld.nextData ∧
    demoEnv.icontains (enbWorld.fileName 0) "enb\\" = true ∧
    enbWorld.debris 0 = [] ++ some 0 :: [none] ∧
    (∃ r, ApplyLight demoEnv enbWorld listedShader = .ok r) ∧
    (∀ r, ApplyLight demoEnv enbWorld listedShader = .ok r →
      r.shader = listedShader ∧ r.world.debris 0 = enbWorld.debris 0 ∧
      addonList r.world r.shader = addonList enbWorld listedShader) :=
  ⟨by decide, by decide, by decide, by decide, by decide, by decide,
    (marked_list_untouched demoEnv enbWorld listedShader 0 0 (by decide) (by decide)
      (by decide) (by decide) (by decide)).1 [] [none]
      (fun _ _ h => Option.noConfusion h) (by decide) (by decide),
    (marked_list_untouched demoEnv enbWorld listedShader 0 0 (by decide) (by decide)
      (by decide) (by decide) (by decide)).2⟩

/-- C13: a missing cache entry degrades to a no-op.  When the resolved category `c`,
other than `kNone`, has no cached model (no entry, or a null entry), `ApplyLight` returns
`true` without fault, whatever the existing list holds, and leaves the shader and the
entries of its list (an object of the heap, if any) as they were: still no list if there
was none, the same entries if there was one. -/
theorem missing_model_noop (env : Env) (w : World) (s : TESEffectShader) (c : LIGHT)
    (hres : resolveLight env s = c) (hc : c ≠ LIGHT.kNone)
    (hmiss : (call_once env w).debrisMap.lookup c = none ∨
      (call_once env w).debrisMap.lookup c = some none)
    (halloc : ∀ q, s.data.addonModels = some q → q < w.nextDebris) :
    ∃ r, ApplyLight env w s = .ok r ∧ r.ret = true ∧ r.shader = s ∧
      addonList r.world r.shader = addonList w s ∧
      (∀ q, q < w.nextDebris → r.world.debris q = w.debris q) := by
  subst hres
  have hi : (index (call_once env w).debrisMap (resolveLight env s)).1 = none := by
    rcases hmiss with h | h
    · rw [index_of_lookup_none h]
    · rw [index_of_lookup_some h]
  cases ha : s.data.addonModels with
  | none =>
    have hatt := attach_none env (call_once env w) s (resolveLight env s) ha
    rw [hi, shader_addonModels_eta s none ha] at hatt
    refine ⟨_, ApplyLight_of_attach env w _ s s hc hatt, rfl, rfl, ?_, ?_⟩
    · simp only [addonList, ha, Option.map_none']
    · intro q hq
      simp only [logShader_debris]
      exact call_once_debris env w q hq
  | some q =>
    have hatt := attach_some_none env (call_once env w) s (resolveLight env s) q ha hi
    refine ⟨_, ApplyLight_of_attach env w _ s s hc hatt, rfl, rfl, ?_, ?_⟩
    · simp only [addonList, ha, Option.map_some', logShader_debris]
      rw [call_once_debris env w q (halloc q ha)]
    · intro q2 hq2
      simp only [logShader_debris]
      exact call_once_debris env w q2 hq2

theorem missing_model_noop_witness :
    resolveLight noFactoryEnv listedShader = LIGHT.kLight 1 ∧
    (call_once noFactoryEnv nullWorld).debrisMap.lookup (LIGHT.kLight 1) = none ∧
    (∀ q, listedShader.data.addonModels = some q → q < nullWorld.nextDebris) ∧
    ∃ r, ApplyLight noFactoryEnv nullWorld listedShader = .ok r ∧ r.ret = true ∧
      r.shader = listedShader ∧
      addonList r.world r.shader = addonList nullWorld listedShader ∧
      (∀ q, q < nullWorld.nextDebris → r.world.debris q = nullWorld.debris q) :=
  ⟨by decide, by decide, by decide,
    missing_model_noop noFactoryEnv nullWorld listedShader (LIGHT.kLight 1) (by decide)
      (by decide) (Or.inl (by decide)) (by decide)⟩

/-- C14: cache immutability.  Start at the beginning of the program (cache not built,
every existing addon-model list an object of the heap), with a category table that has
no `kNone` key and an override lookup that does not read the addon models.  Then after
every non-empty sequence of calls of `ApplyLight`, on any shaders, that returns: the
categories with a cached model and their models are exactly those of the cache as the
first call built it, `kNone` is no key of the cache, and every cached model still lists
exactly the one element it was built with.  The sequence returns when no list holds a
null entry at the start. -/
theorem cache_immutable (env : Env) (g : Game) (i : Nat) (calls : List Nat)
    (hinit : g.world.init = false) (hmap : g.world.debrisMap = [])
    (halloc : ∀ j q, (g.shaders j).data.addonModels = some q → q < g.world.nextDebris)
    (hnif : ∀ entry ∈ env.nifMap, entry.1 ≠ LIGHT.kNone)
    (hov : ∀ (t : TESEffectShader) (b : Option Nat),
      env.GetOverrideLight { t with data := { t.data with addonModels := b } } =
        env.GetOverrideLight t) :
    (g.NoNull → ∃ g2, Game.run env g (i :: calls) = .ok g2) ∧
    (∀ g2, Game.run env g (i :: calls) = .ok g2 →
      (∀ k p, g2.world.debrisMap.lookup k = some (some p) ↔
        (call_once env g.world).debrisMap.lookup k = some (some p)) ∧
      g2.world.debrisMap.lookup LIGHT.kNone = none ∧
      (∀ k p, g2.world.debrisMap.lookup k = some (some p) →
        ∃ x, g2.world.debris p = [some x] ∧ (call_once env g.world).debris p = [some x])) := by
  have hs := Game.settled_of_start env g hinit hmap halloc hnif
  rw [Game.run_call_once]
  constructor
  · intro hn
    apply Game.run_returns env (i :: calls) hov _ hs
    intro j q hq
    show none ∉ (call_once env g.world).debris q
    rw [call_once_debris env g.world q (halloc j q hq)]
    exact hn j q hq
  · intro g2 hrun
    obtain ⟨hs2, hiff, hframe, _⟩ := Game.run_settled env (i :: calls) hov _ g2 hs hrun
    refine ⟨hiff, hs2.2.1, ?_⟩
    intro k p hk
    obtain ⟨x, hx⟩ := hs2.2.2.1 k p hk
    refine ⟨x, hx, ?_⟩
    rw [← hframe k p ((hiff k p).mp hk)]
    exact hx

theorem cache_immutable_witness :
    demoGame.world.init = false ∧ demoGame.world.debrisMap = [] ∧
    (∀ entry ∈ demoEnv.nifMap, entry.1 ≠ LIGHT.kNone) ∧ demoGame.NoNull ∧
    (∃ g2, Game.run demoEnv demoGame [1, 0, 1, 2, 0] = .ok g2) ∧
    (∀ g2, Game.run demoEnv demoGame [1, 0, 1, 2, 0] = .ok g2 →
      (∀ k p, g2.world.debrisMap.lookup k = some (some p) ↔
        (call_once demoEnv demoGame.world).debrisMap.lookup k = some (some p)) ∧
      g2.world.debrisMap.lookup LIGHT.kNone = none ∧
      (∀ k p, g2.world.debrisMap.lookup k = some (some p) →
        ∃ x, g2.world.debris p = [some x] ∧
          (call_once demoEnv demoGame.world).debris p = [some x])) := by
  have halloc : ∀ j q, (demoGame.shaders j).data.addonModels = some q →
      q < demoGame.world.nextDebris := by
    intro j q hq
    by_cases h0 : j = 0
    · subst h0
      exact Option.noConfusion hq
    · by_cases h1 : j = 1
      · subst h1
        have hq0 : q = 0 := by
          have : some 0 = some q := hq
          simpa using this.symm
        subst hq0
        decide
      · have hm : demoGame.shaders j = majorityShader := by
          simp [demoGame, h0, h1]
        rw [hm] at hq
        exact Option.noConfusion hq
  have hnn : demoGame.NoNull := by
    intro j q hq
    have hlt := halloc j q hq
    have hq0 : q = 0 := by
      have : q < 1 := hlt
      omega
    subst hq0
    decide
  have hmain := cache_immutable demoEnv demoGame 1 [0, 1, 2, 0] (by decide) (by decide)
    halloc (by decide) (fun _ _ => rfl)
  exact ⟨by decide, by decide, by decide, hnn, hmain.1 hnn, hmain.2⟩

/-- C19, evaluated on the code: for `listedShader` in `nullWorld`, whose list holds a null
entry before its model, the search of `ApplyLight` reads the file name of the null entry
and the call ends in a fault; the logging loop passes over the same null entry. -/
theorem null_entry_search_faults :
    resolveLight demoEnv listedShader = LIGHT.kLight 1 ∧
    (call_once demoEnv nullWorld).debrisMap.lookup (LIGHT.kLight 1) = some (some 1) ∧
    addonList nullWorld listedShader = some [none, some 0] ∧
    ApplyLight demoEnv nullWorld listedShader = .error Fault.nullDereference ∧
    (logShader demoEnv nullWorld listedShader).log =
      [LogRecord.fileForm "DemoShader" 2048 "Demo.esp", LogRecord.model "Effects\\Sparks.nif"] :=
  ⟨by decide, by decide, by decide, rfl, by decide⟩

end ENBLights
